import Mathlib

/-!
mt5api: the resilient subscription loops of `websocket.go`

The five `SocketOn*` functions (`SocketOnQuote`, `SocketOnOrderUpdate`,
`SocketOnOrderProfit`, `SocketOnOHLC`, `SocketOnMarketWatch`) share one control
skeleton; they differ only in the endpoint string they dial and in the decoder
run by the reader goroutine.  The skeleton is embedded here as a transition
function over the program points at which the main goroutine can be observed:

* the outer `select` with its `default` branch (loop head),
* the `default` branch once it is taken, before `ConnectWebSocket` is called
  (the context can be cancelled between the two),
* the call of `ConnectWebSocket`,
* the `select` racing `ctx.Done()` against `time.After(backoff)`,
* the inner `select` racing `ctx.Done()`, `ticker.C` and `done`,
* the `time.Sleep(time.Second)` after the `reconnect` label,
* the return of the function.

The environment (dial results, timers, the reader goroutine, cancellation and
the choice Go makes among ready `select` cases) is the input alphabet `Event`.
Durations are `time.Duration` values: signed 64-bit nanosecond counts, kept as
integers with explicit wrap-around.

The reader goroutine of a loop is embedded separately: `decodeFrame` is the body
of its `for` loop after a successful `ReadMessage`, `readLoop` the loop itself;
`readerIteration` and `readerRun` are the same body and loop on the storage of
the variables of the body, with what the callback writes through its pointer.
`json.Unmarshal` is embedded on parsed JSON texts, for the struct types the
decoders use, with the rules of `encoding/json` that the decoders depend on:
keys select fields without regard to case, unknown keys are skipped, `null`
leaves a field as it is, a value of the wrong kind records an error and decoding
goes on, the target keeps what was stored before an error, and a struct or a
slice is decoded into what the target already holds.  A `float64` is kept as
the literal it was parsed from and a `time.Time` as its text; what the
toolchain does with a time (which texts it accepts, and how it goes on after
one it rejects) is a parameter.

`Client.webSocketURL` is the URI that `ConnectWebSocket` builds before dialling.

The one-shot side of the client is embedded as far as the session token goes:
`Client.doRequest` with the token it adds to the parameters and its handling of
the status code, the calls that assign the token, and `Close` and `ReadQuote`
of `WebSocketConnection`.  An HTTP exchange and the socket under a connection
are inputs.
-/

namespace Mt5api

/-! ## Durations -/

/-! A Go `time.Duration` is a signed 64-bit count of nanoseconds; it is kept
here as an `Int`, and arithmetic on it is wrapped by `wrapInt64`. -/

/-- Two's complement wrap-around of a mathematical integer into `int64`. -/
def wrapInt64 (x : Int) : Int :=
  (x + 9223372036854775808) % 18446744073709551616 - 9223372036854775808

/-- The Go constant `time.Second`. -/
def Second : Int := 1000000000

/-- The Go constant `time.Minute`. -/
def Minute : Int := 60 * Second

/-- The local `maxBackoff := 5 * time.Minute`. -/
def maxBackoff : Int := wrapInt64 (5 * Minute)

/-- The period of `time.NewTicker(30 * time.Second)`. -/
def heartbeatPeriod : Int := wrapInt64 (30 * Second)

/-- The body of the `case <-time.After(backoff):` branch:
`backoff *= 2; if backoff > maxBackoff { backoff = maxBackoff }`. -/
def nextBackoff (backoff : Int) : Int :=
  let doubled := wrapInt64 (backoff * 2)
  if doubled > maxBackoff then maxBackoff else doubled

/-! ## The loops -/

/-- The subscription loops present in `websocket.go`. -/
inductive Subscription
  | quote
  | orderUpdate
  | orderProfit
  | ohlc
  | marketWatch
  deriving DecidableEq, Repr

/-- The endpoint each loop passes to `ConnectWebSocket`. -/
def Subscription.endpoint : Subscription → String
  | .quote => "/OnQuote"
  | .orderUpdate => "/OnOrderUpdate"
  | .orderProfit => "/OnOrderProfit"
  | .ohlc => "/OnOhlc"
  | .marketWatch => "/OnMarketWatch"

/-- Program points of the main goroutine of a `SocketOn*` function. -/
inductive Phase
  /-- About to evaluate `select { case <-ctx.Done(): return; default: ... }`. -/
  | loopTop
  /-- In the `default` branch of the outer `select`, which has found `ctx.Done()`
  still open; the call of `ConnectWebSocket` comes next. -/
  | defaultBranch
  /-- Inside `c.ConnectWebSocket(ctx, endpoint)`. -/
  | dialing
  /-- Blocked in `select { case <-ctx.Done(); case <-time.After(d) }`. -/
  | backoffWait (d : Int)
  /-- Blocked in `select { case <-ctx.Done(); case <-ticker.C; case <-done }`. -/
  | streaming
  /-- Inside `time.Sleep(d)` after the `reconnect` label. -/
  | reconnectPause (d : Int)
  /-- The function has returned. -/
  | stopped
  deriving DecidableEq, Repr

/-- The variables of one running loop. -/
structure LoopState where
  /-- Program point of the main goroutine. -/
  phase : Phase
  /-- The local variable `backoff`. -/
  backoff : Int
  /-- Whether `ctx.Done()` is closed. -/
  ctxDone : Bool
  /-- Whether the reader goroutine of the latest connection is still running;
  its `done` channel is closed exactly when it has returned. -/
  readerRunning : Bool
  deriving DecidableEq, Repr

/-- What the environment and the Go scheduler can do to a loop. -/
inductive Event
  /-- The context is cancelled. -/
  | cancel
  /-- The main goroutine evaluates the outer `select`. -/
  | enter
  /-- The main goroutine, in the `default` branch, calls `ConnectWebSocket`. -/
  | connect
  /-- The call of `ConnectWebSocket` returns a connection. -/
  | dialOk
  /-- The call of `ConnectWebSocket` returns an error. -/
  | dialErr
  /-- A blocking `select` takes its `case <-ctx.Done()`. -/
  | ctxCase
  /-- The armed timer expires: `time.After` delivers and the `select` takes that
  case, or `time.Sleep` returns. -/
  | timerFired
  /-- The inner `select` takes `case <-ticker.C`; the flag is whether
  `WriteMessage(websocket.PingMessage, nil)` succeeded. -/
  | tick (pingOk : Bool)
  /-- The reader goroutine reads a frame (and decodes and dispatches it). -/
  | frame
  /-- The reader goroutine gets a read error, returns, and `done` is closed. -/
  | readErr
  /-- The inner `select` takes `case <-done`. -/
  | doneCase
  deriving DecidableEq, Repr

/-- Effects of the main goroutine that are visible from outside. -/
inductive Action
  /-- The call `ConnectWebSocket(ctx, endpoint)` is started. -/
  | dial (endpoint : String)
  /-- A timed wait of `d` nanoseconds ran to its expiry. -/
  | waited (d : Int)
  /-- The call `WriteMessage(websocket.PingMessage, nil)` is made. -/
  | ping
  /-- The call `Close()` is made on the connection. -/
  | closeConn
  /-- The `SocketOn*` function returns. -/
  | returned
  deriving DecidableEq, Repr

/-- State on entry of a `SocketOn*` function:
`backoff := time.Second`, loop head, context not yet cancelled. -/
def LoopState.init : LoopState :=
  { phase := .loopTop, backoff := Second, ctxDone := false, readerRunning := false }

/-- One transition of a `SocketOn*` loop.  `none` means that the event cannot
happen in that state. -/
def step (k : Subscription) (s : LoopState) : Event → Option (LoopState × List Action)
  | .cancel => some ({ s with ctxDone := true }, [])
  | .enter =>
    match s.phase with
    | .loopTop =>
      if s.ctxDone then some ({ s with phase := .stopped }, [.returned])
      else some ({ s with phase := .defaultBranch }, [])
    | _ => none
  | .connect =>
    match s.phase with
    | .defaultBranch => some ({ s with phase := .dialing }, [.dial k.endpoint])
    | _ => none
  | .dialErr =>
    match s.phase with
    | .dialing => some ({ s with phase := .backoffWait s.backoff }, [])
    | _ => none
  | .dialOk =>
    match s.phase with
    | .dialing =>
      some ({ s with phase := .streaming, backoff := Second, readerRunning := true }, [])
    | _ => none
  | .ctxCase =>
    match s.phase with
    | .backoffWait _ =>
      if s.ctxDone then some ({ s with phase := .stopped }, [.returned]) else none
    | .streaming =>
      if s.ctxDone then some ({ s with phase := .stopped }, [.returned]) else none
    | _ => none
  | .timerFired =>
    match s.phase with
    | .backoffWait d =>
      some ({ s with phase := .loopTop, backoff := nextBackoff s.backoff }, [.waited d])
    | .reconnectPause d => some ({ s with phase := .loopTop }, [.waited d])
    | _ => none
  | .tick pingOk =>
    match s.phase with
    | .streaming =>
      if pingOk then some (s, [.ping])
      else some ({ s with phase := .stopped }, [.ping, .returned])
    | _ => none
  | .frame => if s.readerRunning then some (s, []) else none
  | .readErr => if s.readerRunning then some ({ s with readerRunning := false }, []) else none
  | .doneCase =>
    match s.phase with
    | .streaming =>
      if s.readerRunning then none else some ({ s with phase := .reconnectPause Second }, [])
    | _ => none

/-- Run a loop along a sequence of events, collecting the actions in order.
`none` as soon as an event cannot happen. -/
def run (k : Subscription) : LoopState → List Event → Option (LoopState × List Action)
  | s, [] => some (s, [])
  | s, e :: es =>
    match step k s e with
    | none => none
    | some (s1, a1) =>
      match run k s1 es with
      | none => none
      | some (s2, a2) => some (s2, a1 ++ a2)

/-- Number of dial failures since the last successful dial (or since the start). -/
def consecFailures (tr : List Event) : Nat :=
  tr.foldl (fun n e => match e with
    | .dialErr => n + 1
    | .dialOk => 0
    | _ => n) 0

/-- Number of connection attempts started among a list of actions. -/
def dials : List Action → Nat
  | [] => 0
  | .dial _ :: as => dials as + 1
  | _ :: as => dials as

/-- The durations of the completed waits among a list of actions, in order. -/
def waits : List Action → List Int
  | [] => []
  | .waited d :: as => d :: waits as
  | _ :: as => waits as

/-- One failed connection attempt followed by a full backoff wait. -/
def failedAttempt : List Event := [.enter, .connect, .dialErr, .timerFired]

/-- The trace of `n` failed connection attempts in a row. -/
def failedAttempts : Nat → List Event
  | 0 => []
  | n + 1 => failedAttempt ++ failedAttempts n

/-! ## Predicates used in the proofs -/

/-- What holds of the variables of a loop at every program point: `backoff`
lies between the floor and the ceiling, and an armed timer carries the value it
was armed with. -/
def LoopInv (s : LoopState) : Prop :=
  1000000000 ≤ s.backoff ∧ s.backoff ≤ 300000000000 ∧
    match s.phase with
    | .backoffWait d => d = s.backoff
    | .reconnectPause d => d = 1000000000
    | _ => True

/-- The wait armed after `n` earlier consecutive dial failures, in nanoseconds. -/
def backoffAfter (n : Nat) : Int := ((min (2 ^ n) 300 : Nat) : Int) * Second

/-- The loop head with `n` consecutive dial failures behind it. -/
def afterFailures (n : Nat) : LoopState :=
  { phase := .loopTop, backoff := backoffAfter n, ctxDone := false, readerRunning := false }

/-- The relation between the trace so far and the loop variables. -/
def BackoffTracks (tr : List Event) (s : LoopState) : Prop :=
  match s.phase with
  | .backoffWait d =>
    1 ≤ consecFailures tr ∧ d = s.backoff ∧ s.backoff = backoffAfter (consecFailures tr - 1)
  | .stopped => True
  | _ => s.backoff = backoffAfter (consecFailures tr)

/-- What holds from a successful dial until the next dial failure: `backoff` is
at the floor and no backoff timer is armed. -/
def AfterDial (s : LoopState) : Prop :=
  s.backoff = Second ∧
    match s.phase with
    | .backoffWait _ => False
    | .reconnectPause d => d = Second
    | _ => True

/-- Scan of a list of actions: every `dial` must find that a wait of at least
one second has elapsed since the previous `dial`; `fresh` says whether a
`dial` is allowed right now. -/
def gapsOk : Bool → List Action → Bool
  | _, [] => true
  | fresh, .dial _ :: as => fresh && gapsOk false as
  | fresh, .waited d :: as => if Second ≤ d then gapsOk true as else gapsOk fresh as
  | fresh, _ :: as => gapsOk fresh as

/-- Whether the loop is at its head or in the `default` branch of the outer
`select`, the only points from which its next action can be a dial. -/
def atLoopTop (s : LoopState) : Bool :=
  match s.phase with
  | .loopTop => true
  | .defaultBranch => true
  | _ => false

/-- The durations of the completed waits that precede the first `dial` of a
list of actions; `none` when the list holds no `dial`. -/
def waitsBeforeDial : List Action → Option (List Int)
  | [] => none
  | .dial _ :: _ => some []
  | .waited d :: as => (waitsBeforeDial as).map (fun w => d :: w)
  | _ :: as => waitsBeforeDial as

/-- The waits that can elapse before a loop in state `s` starts its next
connection attempt. -/
def NextDialAfter (s : LoopState) (w : List Int) : Prop :=
  match s.phase with
  | .loopTop => w = []
  | .defaultBranch => w = []
  | .dialing => w = [Second] ∨ w = [s.backoff]
  | .backoffWait d => w = [d]
  | .streaming => w = [Second]
  | .reconnectPause d => w = [d]
  | .stopped => False

/-- Number of connections a loop has opened along a trace: the successful dials. -/
def opened (tr : List Event) : Nat := tr.count .dialOk

/-- Number of connections a loop has closed: the `Close` calls among its actions. -/
def closed (acts : List Action) : Nat := acts.count .closeConn

/-- Number of reader goroutines that have returned along a trace. -/
def readersEnded (tr : List Event) : Nat := tr.count .readErr

/-- The relation between the trace so far and the reader flag: every connection
but possibly the latest has had its reader return, and a reader can only be
running while the loop streams or after it has returned. -/
def ReadersTrack (tr : List Event) (s : LoopState) : Prop :=
  opened tr = readersEnded tr + (if s.readerRunning then 1 else 0) ∧
    match s.phase with
    | .streaming => True
    | .stopped => True
    | _ => s.readerRunning = false

/-! ## JSON frames and `json.Unmarshal` -/

/-- A JSON number literal: sign, integer part, the digits after the point (how
many there are and their value; none when `fracDigits` is 0) and the exponent
part when there is one. -/
structure JNumber where
  neg : Bool := false
  whole : Nat := 0
  fracDigits : Nat := 0
  fracValue : Nat := 0
  exp : Option Int := none
  deriving DecidableEq, Repr

/-- A parsed JSON text.  Object members keep their order and their duplicates. -/
inductive Json
  | null
  | bool (b : Bool)
  | num (n : JNumber)
  | str (s : String)
  | arr (elems : List Json)
  | obj (members : List (String × Json))

/-- The bytes of a WebSocket message or of a `json.RawMessage`, as
`json.Unmarshal` sees them: bytes that are not one valid JSON text (the empty
`RawMessage` among them), or the JSON text they hold. -/
inductive Frame
  | malformed
  | value (j : Json)

/-- How storing one JSON value into a Go value ends inside `json.Unmarshal`:
stored, an error was saved and decoding goes on (an `UnmarshalTypeError`, the
first of which `json.Unmarshal` returns at its end), or an error stops the
decoding at once. -/
inductive Status
  | ok
  | typeError
  | aborted
  deriving DecidableEq, Repr

/-- The largest magnitude that `strconv.ParseFloat(s, 64)` still rounds to a
finite value lies below 2^1024 - 2^970. -/
def float64Limit : Nat :=
  179769313486231580793728971405303415079934132710037826936173778980444968292764750946649017977587207096330286416692887910946555547851940402630657488671505820681908902000708383676273854845817711531764475730270069855571366959622842914819860834936475292719074168444365510704342711559699508093042880177904174497792

/-- Whether `strconv.ParseFloat(s, 64)` reports a range error for the literal. -/
def JNumber.overflowsFloat64 (n : JNumber) : Bool :=
  let mant := n.whole * 10 ^ n.fracDigits + n.fracValue
  let e : Int := n.exp.getD 0 - n.fracDigits
  if 0 ≤ e then decide (float64Limit ≤ mant * 10 ^ e.toNat)
  else decide (float64Limit * 10 ^ (-e).toNat ≤ mant)

/-- The value `strconv.ParseInt(s, 10, 64)` accepts: the literal must be a
plain integer. -/
def JNumber.toInt? (n : JNumber) : Option Int :=
  if n.fracDigits = 0 ∧ n.exp = none then
    some (if n.neg then -(n.whole : Int) else (n.whole : Int))
  else none

/-- Folding of a JSON key for the case-insensitive match of `encoding/json`:
ASCII letters are folded to upper case, and the two letters outside ASCII whose
simple case folding is an ASCII letter (U+017F and U+212A) are folded to it. -/
def foldName (s : String) : String :=
  String.mk (s.data.map (fun c =>
    if c.toNat = 383 then 'S'
    else if c.toNat = 8490 then 'K'
    else c.toUpper))

/-- A field of a Go struct type `S` as `json.Unmarshal` uses it: the name in its
`json` tag, and how a JSON value is stored into the field. -/
structure Field (S : Type) where
  name : String
  store : Json → S → S × Status

/-- The field a JSON key selects: the field with exactly that name, or else the
first field whose name matches without regard to case. -/
def findField {S : Type} (fields : List (Field S)) (key : String) : Option (Field S) :=
  match fields.find? (fun f => f.name == key) with
  | some f => some f
  | none => fields.find? (fun f => foldName f.name == foldName key)

/-- Decoding of the members of a JSON object into a struct value: members are
taken in order, a key that selects no field is skipped, a saved type error lets
decoding go on, an error of an `Unmarshaler` stops it. -/
def unmarshalMembers {S : Type} (fields : List (Field S)) :
    List (String × Json) → S → Bool → S × Status
  | [], s, saved => (s, if saved then .typeError else .ok)
  | (key, v) :: rest, s, saved =>
    match findField fields key with
    | none => unmarshalMembers fields rest s saved
    | some f =>
      match f.store v s with
      | (s1, .aborted) => (s1, .aborted)
      | (s1, .typeError) => unmarshalMembers fields rest s1 true
      | (s1, .ok) => unmarshalMembers fields rest s1 saved

/-- Storing a JSON value into a struct (the same for a nested struct field and
for the target of `json.Unmarshal`): `null` changes nothing, an object is
decoded member by member, anything else is a type error. -/
def storeStruct {S : Type} (fields : List (Field S)) : Json → S → S × Status
  | .null, s => (s, .ok)
  | .obj members, s => unmarshalMembers fields members s false
  | _, s => (s, .typeError)

/-- The call `json.Unmarshal(data, &v)` for a struct `v`: the value of `v` after
the call, and whether the returned error is nil. -/
def unmarshal {S : Type} (fields : List (Field S)) : Frame → S → S × Bool
  | .malformed, s => (s, false)
  | .value j, s =>
    match storeStruct fields j s with
    | (s1, .ok) => (s1, true)
    | (s1, _) => (s1, false)

/-- A field of kind string (also of a named string type). -/
def Field.string {S : Type} (name : String) (set : S → String → S) : Field S :=
  { name := name
    store := fun j s =>
      match j with
      | .null => (s, .ok)
      | .str x => (set s x, .ok)
      | _ => (s, .typeError) }

/-- A `float64` field; it keeps the literal it was parsed from. -/
def Field.float64 {S : Type} (name : String) (set : S → JNumber → S) : Field S :=
  { name := name
    store := fun j s =>
      match j with
      | .null => (s, .ok)
      | .num n => if n.overflowsFloat64 then (s, .typeError) else (set s n, .ok)
      | _ => (s, .typeError) }

/-- A signed integer field of the given bit size (`int32`, `int64`). -/
def Field.int {S : Type} (bits : Nat) (name : String) (set : S → Int → S) : Field S :=
  { name := name
    store := fun j s =>
      match j with
      | .null => (s, .ok)
      | .num n =>
        match n.toInt? with
        | some i =>
          if -(2 ^ (bits - 1) : Int) ≤ i ∧ i < 2 ^ (bits - 1) then (set s i, .ok)
          else (s, .typeError)
        | none => (s, .typeError)
      | _ => (s, .typeError) }

/-- A `uint64` field: `strconv.ParseUint` takes no sign. -/
def Field.uint64 {S : Type} (name : String) (set : S → Nat → S) : Field S :=
  { name := name
    store := fun j s =>
      match j with
      | .null => (s, .ok)
      | .num n =>
        if n.neg = false ∧ n.fracDigits = 0 ∧ n.exp = none ∧ n.whole < 2 ^ 64 then
          (set s n.whole, .ok)
        else (s, .typeError)
      | _ => (s, .typeError) }

/-- What the `encoding/json` and `time` packages of the Go toolchain in use do
with a JSON value for a `time.Time` field.  The repository does not fix the
toolchain, and the releases differ: up to Go 1.26 an error of
`Time.UnmarshalJSON` ends `json.Unmarshal` at once (`stops`), and a string
that is rejected has by then overwritten the field with the zero time
(`*t, err = parseStrictRFC3339(data)`). -/
structure TimeRules where
  /-- Whether the text of a JSON string is accepted as an RFC 3339 time. -/
  valid : String → Bool
  /-- Whether `json.Unmarshal` stops at once at a value that is rejected;
  otherwise it saves the error and decodes on. -/
  stops : Bool
  /-- What a value that is rejected leaves in a field that held the given
  time. -/
  leaves : Json → Option String → Option String

/-- How storing a rejected value into a `time.Time` field ends. -/
def TimeRules.failure (rules : TimeRules) : Status :=
  if rules.stops then .aborted else .typeError

/-- A `time.Time` field: `null` changes nothing, a string that is accepted as
RFC 3339 is stored, and any other value is rejected: an error, with what the
toolchain leaves in the field.  The time is kept as its text, `none` being the
zero time. -/
def Field.time {S : Type} (rules : TimeRules) (name : String) (get : S → Option String)
    (set : S → Option String → S) : Field S :=
  { name := name
    store := fun j s =>
      match j with
      | .null => (s, .ok)
      | .str x =>
        if rules.valid x then (set s (some x), .ok)
        else (set s (rules.leaves j (get s)), rules.failure)
      | _ => (set s (rules.leaves j (get s)), rules.failure) }

/-- A field of a struct type `N`. -/
def Field.struct {S N : Type} (name : String) (get : S → N) (set : S → N → S)
    (fields : List (Field N)) : Field S :=
  { name := name
    store := fun j s =>
      match storeStruct fields j (get s) with
      | (n, st) => (set s n, st) }

/-- A Go slice of structs `N` as `json.Unmarshal` finds it and leaves it:
whether it is nil, the elements within its length, and the elements that its
backing array still holds past its length from an earlier, longer content.
The rest of the capacity is zero memory. -/
structure Slice (N : Type) where
  isNil : Bool := true
  elems : List N := []
  spare : List N := []
  deriving DecidableEq

/-- Decoding of the elements of a JSON array into a slice, given what the
backing array of the slice holds from the current index on: the `i`-th JSON
element is decoded into the `i`-th element of the backing array as it stands,
and into a zero value once the backing array is used up (the slice is grown by
zero memory).  The result is the elements decoded into, what the backing array
holds past them, and how the decoding ended. -/
def unmarshalElems {N : Type} (fields : List (Field N)) (zero : N) :
    List Json → List N → Bool → List N × List N × Status
  | [], backing, saved => ([], backing, if saved then .typeError else .ok)
  | j :: rest, backing, saved =>
    match storeStruct fields j (backing.headD zero) with
    | (n, .aborted) => ([n], backing.tail, .aborted)
    | (n, .typeError) =>
      match unmarshalElems fields zero rest backing.tail true with
      | (ns, left, st) => (n :: ns, left, st)
    | (n, .ok) =>
      match unmarshalElems fields zero rest backing.tail saved with
      | (ns, left, st) => (n :: ns, left, st)

/-- A field that is a slice of structs `N`.  `null` stores the nil slice.  An
array is decoded element by element into the backing array of the slice as it
stands; at the end the length of the slice is the number of JSON elements, and
the empty array stores a new empty slice.  When the decoding stops inside an
element the length is not cut.  Any other value is a type error. -/
def Field.slice {S N : Type} (name : String) (get : S → Slice N) (set : S → Slice N → S)
    (fields : List (Field N)) (zero : N) : Field S :=
  { name := name
    store := fun j s =>
      match j with
      | .null => (set s {}, .ok)
      | .arr js =>
        match unmarshalElems fields zero js ((get s).elems ++ (get s).spare) false with
        | (ns, left, .aborted) =>
          let len := max (get s).elems.length ns.length
          (set s { isNil := false, elems := (ns ++ left).take len,
                   spare := (ns ++ left).drop len }, .aborted)
        | (ns, left, st) =>
          if js.isEmpty then (set s { isNil := false }, st)
          else (set s { isNil := false, elems := ns, spare := left }, st)
      | _ => (s, .typeError) }

/-! ## The event types and their fields -/

/-- The Go struct `Quote` of `symbols.go`; a field keeps its Go name. -/
structure Quote where
  Symbol : String := ""
  Bid : JNumber := {}
  Ask : JNumber := {}
  TimestampUTC : Nat := 0
  Last : JNumber := {}
  Volume : Int := 0
  deriving DecidableEq

/-- The Go struct `Order` of `orders.go`; a field keeps its Go name. -/
structure Order where
  Ticket : Int := 0
  Profit : JNumber := {}
  Swap : JNumber := {}
  Commission : JNumber := {}
  Fee : JNumber := {}
  ClosePrice : JNumber := {}
  CloseTimestampUTC : Nat := 0
  CloseLots : JNumber := {}
  CloseComment : String := ""
  OpenPrice : JNumber := {}
  OpenTimestampUTC : Nat := 0
  Lots : JNumber := {}
  ContractSize : JNumber := {}
  ExpertId : Int := 0
  PlacedType : String := ""
  OrderType : String := ""
  Symbol : String := ""
  Comment : String := ""
  State : String := ""
  StopLoss : JNumber := {}
  TakeProfit : JNumber := {}
  RequestId : Int := 0
  Digits : Int := 0
  ProfitRate : JNumber := {}
  StopLimitPrice : JNumber := {}
  deriving DecidableEq

/-- The Go struct `DealInternal` of `order_history.go`; a field keeps its Go name. -/
structure DealInternal where
  TicketNumber : Int := 0
  Id : String := ""
  Login : Int := 0
  HistoryTime : Int := 0
  OrderTicket : Int := 0
  OpenTime : Int := 0
  Symbol : String := ""
  Type_ : String := ""
  Direction : String := ""
  OpenPrice : JNumber := {}
  Price : JNumber := {}
  StopLoss : JNumber := {}
  TakeProfit : JNumber := {}
  Volume : Int := 0
  Profit : JNumber := {}
  ProfitRate : JNumber := {}
  VolumeRate : JNumber := {}
  Commission : JNumber := {}
  Fee : JNumber := {}
  Swap : JNumber := {}
  ExpertId : Int := 0
  PositionTicket : Int := 0
  Comment : String := ""
  ContractSize : JNumber := {}
  Digits : Int := 0
  MoneyDigits : Int := 0
  FreeProfit : JNumber := {}
  TrailRounder : JNumber := {}
  OpenTimeMs : Int := 0
  PlacedType : String := ""
  Lots : JNumber := {}
  deriving DecidableEq

/-- The Go struct `OrderInternal` of `order_history.go`; a field keeps its Go name. -/
structure OrderInternal where
  TicketNumber : Int := 0
  Id : String := ""
  Login : Int := 0
  Symbol : String := ""
  HistoryTime : Int := 0
  OpenTime : Int := 0
  ExpirationTime : Int := 0
  ExecutionTime : Int := 0
  Type_ : String := ""
  FillPolicy : String := ""
  PlacedType : String := ""
  OpenPrice : JNumber := {}
  StopLimitPrice : JNumber := {}
  Price : JNumber := {}
  StopLoss : JNumber := {}
  TakeProfit : JNumber := {}
  Volume : Int := 0
  RequestVolume : Int := 0
  State : String := ""
  ExpertId : Int := 0
  DealTicket : Int := 0
  Comment : String := ""
  ContractSize : JNumber := {}
  Digits : Int := 0
  BaseDigits : Int := 0
  ProfitRate : JNumber := {}
  OpenTimeMs : Int := 0
  Ticket : Int := 0
  Lots : JNumber := {}
  RequestLots : JNumber := {}
  deriving DecidableEq

/-- The Go struct `TransactionInfo` of `websocket.go`; a field keeps its Go name. -/
structure TransactionInfo where
  UpdateId : Int := 0
  Action : Int := 0
  TicketNumber : Int := 0
  Currency : String := ""
  Id : Int := 0
  S58 : String := ""
  OrderState : String := ""
  OpenPrice : JNumber := {}
  OrderPrice : JNumber := {}
  StopLoss : JNumber := {}
  TakeProfit : JNumber := {}
  Volume : Int := 0
  deriving DecidableEq

/-- The Go struct `OrderUpdate` of `websocket.go`; a field keeps its Go name. -/
structure OrderUpdate where
  Trans : Mt5api.TransactionInfo := {}
  OrderInternal : Mt5api.OrderInternal := {}
  Deal : Mt5api.DealInternal := {}
  OppositeDeal : Mt5api.DealInternal := {}
  Order : Mt5api.Order := {}
  Type_ : String := ""
  CloseByTicket : Int := 0
  deriving DecidableEq

/-- The Go struct `OrderUpdateSummary` of `websocket.go`; a field keeps its Go name. -/
structure OrderUpdateSummary where
  OpenedOrders : Slice Mt5api.Order := {}
  Update : Mt5api.OrderUpdate := {}
  Balance : JNumber := {}
  Equity : JNumber := {}
  Margin : JNumber := {}
  FreeMargin : JNumber := {}
  Profit : JNumber := {}
  MarginLevel : JNumber := {}
  Credit : JNumber := {}
  User : Int := 0
  deriving DecidableEq

/-- The Go struct `ProfitUpdate` of `websocket.go`; a field keeps its Go name. -/
structure ProfitUpdate where
  Balance : JNumber := {}
  Credit : JNumber := {}
  Equity : JNumber := {}
  Margin : JNumber := {}
  FreeMargin : JNumber := {}
  Profit : JNumber := {}
  Orders : Slice Mt5api.Order := {}
  MarginLevel : JNumber := {}
  User : Int := 0
  deriving DecidableEq

/-- The Go struct `OhlcSubscription` of `websocket.go`; a field keeps its Go name. -/
structure OhlcSubscription where
  Symbol : String := ""
  Timeframe : Int := 0
  Open : JNumber := {}
  High : JNumber := {}
  Low : JNumber := {}
  Close : JNumber := {}
  Time : Option String := none
  Volume : Int := 0
  TickVolume : Int := 0
  LastQuoteTime : Option String := none
  deriving DecidableEq

/-- The Go struct `MarketWatch` of `websocket.go`; a field keeps its Go name. -/
structure MarketWatch where
  Symbol : String := ""
  High : JNumber := {}
  Low : JNumber := {}
  OpenPrice : JNumber := {}
  ClosePrice : JNumber := {}
  DailyChange : JNumber := {}
  Bid : JNumber := {}
  Ask : JNumber := {}
  Spread : Int := 0
  Volume : Int := 0
  deriving DecidableEq

/-- The fields of `Quote` as `json.Unmarshal` fills them, from the `json` tags. -/
def Quote.fields : List (Field Quote) :=
  [ .string "symbol" (fun s v => { s with Symbol := v }),
    .float64 "bid" (fun s v => { s with Bid := v }),
    .float64 "ask" (fun s v => { s with Ask := v }),
    .uint64 "timestampUTC" (fun s v => { s with TimestampUTC := v }),
    .float64 "last" (fun s v => { s with Last := v }),
    .int 64 "volume" (fun s v => { s with Volume := v }) ]

/-- The fields of `Order` as `json.Unmarshal` fills them, from the `json` tags. -/
def Order.fields : List (Field Order) :=
  [ .int 64 "ticket" (fun s v => { s with Ticket := v }),
    .float64 "profit" (fun s v => { s with Profit := v }),
    .float64 "swap" (fun s v => { s with Swap := v }),
    .float64 "commission" (fun s v => { s with Commission := v }),
    .float64 "fee" (fun s v => { s with Fee := v }),
    .float64 "closePrice" (fun s v => { s with ClosePrice := v }),
    .uint64 "closeTimestampUTC" (fun s v => { s with CloseTimestampUTC := v }),
    .float64 "closeLots" (fun s v => { s with CloseLots := v }),
    .string "closeComment" (fun s v => { s with CloseComment := v }),
    .float64 "openPrice" (fun s v => { s with OpenPrice := v }),
    .uint64 "openTimestampUTC" (fun s v => { s with OpenTimestampUTC := v }),
    .float64 "lots" (fun s v => { s with Lots := v }),
    .float64 "contractSize" (fun s v => { s with ContractSize := v }),
    .int 64 "expertId" (fun s v => { s with ExpertId := v }),
    .string "placedType" (fun s v => { s with PlacedType := v }),
    .string "orderType" (fun s v => { s with OrderType := v }),
    .string "symbol" (fun s v => { s with Symbol := v }),
    .string "comment" (fun s v => { s with Comment := v }),
    .string "state" (fun s v => { s with State := v }),
    .float64 "stopLoss" (fun s v => { s with StopLoss := v }),
    .float64 "takeProfit" (fun s v => { s with TakeProfit := v }),
    .int 32 "requestId" (fun s v => { s with RequestId := v }),
    .int 32 "digits" (fun s v => { s with Digits := v }),
    .float64 "profitRate" (fun s v => { s with ProfitRate := v }),
    .float64 "stopLimitPrice" (fun s v => { s with StopLimitPrice := v }) ]

/-- The fields of `DealInternal` as `json.Unmarshal` fills them, from the `json` tags. -/
def DealInternal.fields : List (Field DealInternal) :=
  [ .int 64 "ticketNumber" (fun s v => { s with TicketNumber := v }),
    .string "id" (fun s v => { s with Id := v }),
    .int 64 "login" (fun s v => { s with Login := v }),
    .int 64 "historyTime" (fun s v => { s with HistoryTime := v }),
    .int 64 "orderTicket" (fun s v => { s with OrderTicket := v }),
    .int 64 "openTime" (fun s v => { s with OpenTime := v }),
    .string "symbol" (fun s v => { s with Symbol := v }),
    .string "type" (fun s v => { s with Type_ := v }),
    .string "direction" (fun s v => { s with Direction := v }),
    .float64 "openPrice" (fun s v => { s with OpenPrice := v }),
    .float64 "price" (fun s v => { s with Price := v }),
    .float64 "stopLoss" (fun s v => { s with StopLoss := v }),
    .float64 "takeProfit" (fun s v => { s with TakeProfit := v }),
    .int 64 "volume" (fun s v => { s with Volume := v }),
    .float64 "profit" (fun s v => { s with Profit := v }),
    .float64 "profitRate" (fun s v => { s with ProfitRate := v }),
    .float64 "volumeRate" (fun s v => { s with VolumeRate := v }),
    .float64 "commission" (fun s v => { s with Commission := v }),
    .float64 "fee" (fun s v => { s with Fee := v }),
    .float64 "swap" (fun s v => { s with Swap := v }),
    .int 64 "expertId" (fun s v => { s with ExpertId := v }),
    .int 64 "positionTicket" (fun s v => { s with PositionTicket := v }),
    .string "comment" (fun s v => { s with Comment := v }),
    .float64 "contractSize" (fun s v => { s with ContractSize := v }),
    .int 32 "digits" (fun s v => { s with Digits := v }),
    .int 32 "moneyDigits" (fun s v => { s with MoneyDigits := v }),
    .float64 "freeProfit" (fun s v => { s with FreeProfit := v }),
    .float64 "trailRounder" (fun s v => { s with TrailRounder := v }),
    .int 64 "openTimeMs" (fun s v => { s with OpenTimeMs := v }),
    .string "placedType" (fun s v => { s with PlacedType := v }),
    .float64 "lots" (fun s v => { s with Lots := v }) ]

/-- The fields of `OrderInternal` as `json.Unmarshal` fills them, from the `json` tags. -/
def OrderInternal.fields : List (Field OrderInternal) :=
  [ .int 64 "ticketNumber" (fun s v => { s with TicketNumber := v }),
    .string "id" (fun s v => { s with Id := v }),
    .int 64 "login" (fun s v => { s with Login := v }),
    .string "symbol" (fun s v => { s with Symbol := v }),
    .int 64 "historyTime" (fun s v => { s with HistoryTime := v }),
    .int 64 "openTime" (fun s v => { s with OpenTime := v }),
    .int 64 "expirationTime" (fun s v => { s with ExpirationTime := v }),
    .int 64 "executionTime" (fun s v => { s with ExecutionTime := v }),
    .string "type" (fun s v => { s with Type_ := v }),
    .string "fillPolicy" (fun s v => { s with FillPolicy := v }),
    .string "placedType" (fun s v => { s with PlacedType := v }),
    .float64 "openPrice" (fun s v => { s with OpenPrice := v }),
    .float64 "stopLimitPrice" (fun s v => { s with StopLimitPrice := v }),
    .float64 "price" (fun s v => { s with Price := v }),
    .float64 "stopLoss" (fun s v => { s with StopLoss := v }),
    .float64 "takeProfit" (fun s v => { s with TakeProfit := v }),
    .int 64 "volume" (fun s v => { s with Volume := v }),
    .int 64 "requestVolume" (fun s v => { s with RequestVolume := v }),
    .string "state" (fun s v => { s with State := v }),
    .int 64 "expertId" (fun s v => { s with ExpertId := v }),
    .int 64 "dealTicket" (fun s v => { s with DealTicket := v }),
    .string "comment" (fun s v => { s with Comment := v }),
    .float64 "contractSize" (fun s v => { s with ContractSize := v }),
    .int 32 "digits" (fun s v => { s with Digits := v }),
    .int 32 "baseDigits" (fun s v => { s with BaseDigits := v }),
    .float64 "profitRate" (fun s v => { s with ProfitRate := v }),
    .int 64 "openTimeMs" (fun s v => { s with OpenTimeMs := v }),
    .int 64 "ticket" (fun s v => { s with Ticket := v }),
    .float64 "lots" (fun s v => { s with Lots := v }),
    .float64 "requestLots" (fun s v => { s with RequestLots := v }) ]

/-- The fields of `TransactionInfo` as `json.Unmarshal` fills them, from the `json` tags. -/
def TransactionInfo.fields : List (Field TransactionInfo) :=
  [ .int 32 "updateId" (fun s v => { s with UpdateId := v }),
    .int 32 "action" (fun s v => { s with Action := v }),
    .int 64 "ticketNumber" (fun s v => { s with TicketNumber := v }),
    .string "currency" (fun s v => { s with Currency := v }),
    .int 32 "id" (fun s v => { s with Id := v }),
    .string "s58" (fun s v => { s with S58 := v }),
    .string "orderState" (fun s v => { s with OrderState := v }),
    .float64 "openPrice" (fun s v => { s with OpenPrice := v }),
    .float64 "orderPrice" (fun s v => { s with OrderPrice := v }),
    .float64 "stopLoss" (fun s v => { s with StopLoss := v }),
    .float64 "takeProfit" (fun s v => { s with TakeProfit := v }),
    .int 64 "volume" (fun s v => { s with Volume := v }) ]

/-- The fields of `OrderUpdate` as `json.Unmarshal` fills them, from the `json` tags. -/
def OrderUpdate.fields : List (Field OrderUpdate) :=
  [ .struct "trans" (fun s => s.Trans) (fun s v => { s with Trans := v }) TransactionInfo.fields,
    .struct "orderInternal" (fun s => s.OrderInternal) (fun s v => { s with OrderInternal := v })
      OrderInternal.fields,
    .struct "deal" (fun s => s.Deal) (fun s v => { s with Deal := v }) DealInternal.fields,
    .struct "oppositeDeal" (fun s => s.OppositeDeal) (fun s v => { s with OppositeDeal := v })
      DealInternal.fields,
    .struct "order" (fun s => s.Order) (fun s v => { s with Order := v }) Order.fields,
    .string "type" (fun s v => { s with Type_ := v }),
    .int 64 "closeByTicket" (fun s v => { s with CloseByTicket := v }) ]

/-- The fields of `OrderUpdateSummary` as `json.Unmarshal` fills them, from the `json` tags. -/
def OrderUpdateSummary.fields : List (Field OrderUpdateSummary) :=
  [ .slice "openedOrders" (fun s => s.OpenedOrders) (fun s v => { s with OpenedOrders := v })
      Order.fields {},
    .struct "update" (fun s => s.Update) (fun s v => { s with Update := v }) OrderUpdate.fields,
    .float64 "balance" (fun s v => { s with Balance := v }),
    .float64 "equity" (fun s v => { s with Equity := v }),
    .float64 "margin" (fun s v => { s with Margin := v }),
    .float64 "freeMargin" (fun s v => { s with FreeMargin := v }),
    .float64 "profit" (fun s v => { s with Profit := v }),
    .float64 "marginLevel" (fun s v => { s with MarginLevel := v }),
    .float64 "credit" (fun s v => { s with Credit := v }),
    .int 64 "user" (fun s v => { s with User := v }) ]

/-- The fields of `ProfitUpdate` as `json.Unmarshal` fills them, from the `json` tags. -/
def ProfitUpdate.fields : List (Field ProfitUpdate) :=
  [ .float64 "balance" (fun s v => { s with Balance := v }),
    .float64 "credit" (fun s v => { s with Credit := v }),
    .float64 "equity" (fun s v => { s with Equity := v }),
    .float64 "margin" (fun s v => { s with Margin := v }),
    .float64 "freeMargin" (fun s v => { s with FreeMargin := v }),
    .float64 "profit" (fun s v => { s with Profit := v }),
    .slice "orders" (fun s => s.Orders) (fun s v => { s with Orders := v }) Order.fields {},
    .float64 "marginLevel" (fun s v => { s with MarginLevel := v }),
    .int 64 "user" (fun s v => { s with User := v }) ]

/-- The fields of `OhlcSubscription` as `json.Unmarshal` fills them, from the `json` tags. -/
def OhlcSubscription.fields (rules : TimeRules) : List (Field OhlcSubscription) :=
  [ .string "symbol" (fun s v => { s with Symbol := v }),
    .int 32 "timeframe" (fun s v => { s with Timeframe := v }),
    .float64 "open" (fun s v => { s with Open := v }),
    .float64 "high" (fun s v => { s with High := v }),
    .float64 "low" (fun s v => { s with Low := v }),
    .float64 "close" (fun s v => { s with Close := v }),
    .time rules "time" (fun s => s.Time) (fun s v => { s with Time := v }),
    .int 64 "volume" (fun s v => { s with Volume := v }),
    .int 64 "tickVolume" (fun s v => { s with TickVolume := v }),
    .time rules "lastQuoteTime" (fun s => s.LastQuoteTime)
      (fun s v => { s with LastQuoteTime := v }) ]

/-- The fields of `MarketWatch` as `json.Unmarshal` fills them, from the `json` tags. -/
def MarketWatch.fields : List (Field MarketWatch) :=
  [ .string "symbol" (fun s v => { s with Symbol := v }),
    .float64 "high" (fun s v => { s with High := v }),
    .float64 "low" (fun s v => { s with Low := v }),
    .float64 "openPrice" (fun s v => { s with OpenPrice := v }),
    .float64 "closePrice" (fun s v => { s with ClosePrice := v }),
    .float64 "dailyChange" (fun s v => { s with DailyChange := v }),
    .float64 "bid" (fun s v => { s with Bid := v }),
    .float64 "ask" (fun s v => { s with Ask := v }),
    .int 32 "spread" (fun s v => { s with Spread := v }),
    .int 64 "volume" (fun s v => { s with Volume := v }) ]

/-! ## The frame decoders of the reader goroutines -/

/-- The anonymous struct `response` of the reader goroutines:
`Type string` with tag `type` and `Data json.RawMessage` with tag `data`. -/
structure Envelope where
  Type_ : String := ""
  Data : Frame := .malformed

/-- A `json.RawMessage` field: `RawMessage.UnmarshalJSON` keeps the bytes of
whatever JSON value it is given, `null` included. -/
def Field.rawMessage {S : Type} (name : String) (set : S → Frame → S) : Field S :=
  { name := name
    store := fun j s => (set s (.value j), .ok) }

/-- The fields of `response` as `json.Unmarshal` fills them. -/
def Envelope.fields : List (Field Envelope) :=
  [ .string "type" (fun s v => { s with Type_ := v }),
    .rawMessage "data" (fun s v => { s with Data := v }) ]

/-- What distinguishes the frame decoder of one `SocketOn*` loop from the
others: the event type `T` with its zero value and fields, the condition the
first `if` puts on the decoded value besides `err == nil`, and the string of
the `case` in `switch response.Type`. -/
structure Variant (T : Type) where
  zero : T
  fields : List (Field T)
  accept : T → Bool
  label : String

/-- What one iteration of a reader goroutine does with the frame it has read:
the callback is called by the first attempt (followed by `continue`), the
callback is called by the envelope attempt, or the callback is not called. -/
inductive Outcome (T : Type)
  | direct (ev : T)
  | enveloped (ev : T)
  | dropped
  deriving DecidableEq, Repr

/-- The event the callback is called with, when it is called. -/
def Outcome.delivered {T : Type} : Outcome T → Option T
  | .direct ev => some ev
  | .enveloped ev => some ev
  | .dropped => none

/-- The body of the reader loop after a successful `ReadMessage`
(`SocketOnQuote`, lines 159-176, and the same lines of the other loops): one
variable of the event type, declared afresh, is the target of the first
`json.Unmarshal` and, when the envelope carries the expected type, of the
`json.Unmarshal` of `response.Data` as well. -/
def decodeFrame {T : Type} (V : Variant T) (raw : Frame) : Outcome T :=
  match unmarshal V.fields raw V.zero with
  | (v1, ok1) =>
    if ok1 && V.accept v1 then .direct v1
    else
      match unmarshal Envelope.fields raw {} with
      | (response, ok2) =>
        if ok2 then
          if response.Type_ = V.label then
            match unmarshal V.fields response.Data v1 with
            | (v2, ok3) => if ok3 then .enveloped v2 else .dropped
          else .dropped
        else .dropped

/-- The decoder of `SocketOnQuote`: `var quote Quote`,
`err == nil && quote.Symbol != ""`, `case "Quote"`. -/
def quoteVariant : Variant Quote :=
  { zero := {}, fields := Quote.fields, accept := fun q => q.Symbol != "", label := "Quote" }

/-- The decoder of `SocketOnOrderUpdate`: `err == nil`, `case "OrderUpdate"`. -/
def orderUpdateVariant : Variant OrderUpdateSummary :=
  { zero := {}, fields := OrderUpdateSummary.fields, accept := fun _ => true,
    label := "OrderUpdate" }

/-- The decoder of `SocketOnOrderProfit`: `err == nil`, `case "ProfitUpdate"`. -/
def orderProfitVariant : Variant ProfitUpdate :=
  { zero := {}, fields := ProfitUpdate.fields, accept := fun _ => true, label := "ProfitUpdate" }

/-- The decoder of `SocketOnOHLC`: `err == nil`, `case "Ohlc"`. -/
def ohlcVariant (rules : TimeRules) : Variant OhlcSubscription :=
  { zero := {}, fields := OhlcSubscription.fields rules, accept := fun _ => true,
    label := "Ohlc" }

/-- The decoder of `SocketOnMarketWatch`: `err == nil`, `case "MarketWatch"`. -/
def marketWatchVariant : Variant MarketWatch :=
  { zero := {}, fields := MarketWatch.fields, accept := fun _ => true, label := "MarketWatch" }

/-- The frame whose JSON text is the payload `p` itself. -/
def bareFrame (p : Json) : Frame := .value p

/-- The frame whose JSON text is the object with member `type` holding the
label and member `data` holding the payload `p`. -/
def envelopeFrame (label : String) (p : Json) : Frame :=
  .value (.obj [("type", .str label), ("data", p)])

/-- What a call of `conn.ReadMessage()` in a reader goroutine returns. -/
inductive ReadResult
  | frame (raw : Frame)
  | error

/-- The reader goroutine of a connection, run on the results of its successive
`ReadMessage` calls: the events the callback is called with, in the order of
the calls.  A read error ends the goroutine. -/
def readLoop {T : Type} (V : Variant T) : List ReadResult → List T
  | [] => []
  | .error :: _ => []
  | .frame raw :: rest =>
    match decodeFrame V raw with
    | .direct ev => ev :: readLoop V rest
    | .enveloped ev => ev :: readLoop V rest
    | .dropped => readLoop V rest

/-- The frames a reader goroutine reads: those before the first read error. -/
def framesRead : List ReadResult → List Frame
  | [] => []
  | .error :: _ => []
  | .frame raw :: rest => raw :: framesRead rest

/-- The events a run of frames contributes to the callback, in order. -/
def eventsOf {T : Type} (V : Variant T) (frames : List Frame) : List T :=
  frames.filterMap (fun raw => (decodeFrame V raw).delivered)

/-- The storage of the two variables of the body of a reader loop, `quote`
(`update`, `ohlc`, `mw` in the other loops) and `response`, as one iteration
leaves it and the next one finds it. -/
structure ReaderVars (T : Type) where
  event : T
  response : Envelope

/-- One iteration of a reader goroutine after a successful `ReadMessage`, on
the storage of its variables.  The declaration `var quote Quote` sets the event
variable to its zero value and `var response struct{...}`, when it is reached,
sets the envelope variable to its zero value; the rest is the body as in
`decodeFrame`.  The callback is handed a pointer to the event variable: `cb`
is what it leaves there. -/
def readerIteration {T : Type} (V : Variant T) (cb : T → T) (vars : ReaderVars T)
    (raw : Frame) : ReaderVars T × Outcome T :=
  let declared : ReaderVars T := { vars with event := V.zero }
  match unmarshal V.fields raw declared.event with
  | (v1, ok1) =>
    if ok1 && V.accept v1 then ({ declared with event := cb v1 }, .direct v1)
    else
      let declared2 : ReaderVars T := { event := v1, response := {} }
      match unmarshal Envelope.fields raw declared2.response with
      | (response, ok2) =>
        if ok2 then
          if response.Type_ = V.label then
            match unmarshal V.fields response.Data declared2.event with
            | (v2, ok3) =>
              if ok3 then ({ event := cb v2, response := response }, .enveloped v2)
              else ({ event := v2, response := response }, .dropped)
          else ({ declared2 with response := response }, .dropped)
        else ({ declared2 with response := response }, .dropped)

/-- The reader goroutine on the storage of its variables, run on the results of
its successive `ReadMessage` calls: what each iteration does with its frame, in
order.  The callback of the `n`-th iteration leaves `cb n` in the event
variable.  A read error ends the goroutine. -/
def readerRun {T : Type} (V : Variant T) (cb : Nat → T → T) :
    Nat → ReaderVars T → List ReadResult → List (Outcome T)
  | _, _, [] => []
  | _, _, .error :: _ => []
  | n, vars, .frame raw :: rest =>
    match readerIteration V (cb n) vars raw with
    | (vars1, out) => out :: readerRun V cb (n + 1) vars1 rest

/-! ## The connection URI of `ConnectWebSocket` -/

/-- The fields of `Client` that `ConnectWebSocket` reads. -/
structure Client where
  BaseURL : String
  Token : String
  deriving DecidableEq, Repr

/-- The fields of `url.URL` that `ConnectWebSocket` sets. -/
structure URL where
  Scheme : String
  Host : String
  Path : String
  RawQuery : String
  deriving DecidableEq, Repr

/-- The characters of `strings.Replace(s, old, new, 1)` for a non-empty `old`:
the leftmost occurrence of `old` is replaced. -/
def replaceFirst (old new : List Char) : List Char → List Char
  | [] => []
  | c :: cs =>
    if old.isPrefixOf (c :: cs) then new ++ (c :: cs).drop old.length
    else c :: replaceFirst old new cs

/-- The call `strings.Replace(s, old, new, 1)`. -/
def stringsReplaceOnce (s old new : String) : String :=
  String.mk (replaceFirst old.data new.data s.data)

/-- The call `strings.HasPrefix(s, pre)`. -/
def stringsHasPrefix (s pre : String) : Bool :=
  pre.data.isPrefixOf s.data

/-- The call `strings.TrimPrefix(s, pre)`. -/
def stringsTrimPrefix (s pre : String) : String :=
  if stringsHasPrefix s pre then String.mk (s.data.drop pre.data.length) else s

/-- The `url.URL` that `ConnectWebSocket` builds before it dials (lines 21-36);
`fmt.Sprintf("id=%s", c.Token)` is the concatenation of `id=` and the token. -/
def Client.webSocketURL (c : Client) (endpoint : String) : URL :=
  let wsURL := stringsReplaceOnce c.BaseURL "http://" "ws://"
  let wsURL := stringsReplaceOnce wsURL "https://" "wss://"
  let u : URL :=
    { Scheme := "ws", Host := stringsTrimPrefix wsURL "ws://", Path := endpoint,
      RawQuery := "id=" ++ c.Token }
  if stringsHasPrefix c.BaseURL "https://" then
    { u with Scheme := "wss", Host := stringsTrimPrefix wsURL "wss://" }
  else u

/-! ## One-shot requests and the session token -/

/-- A `url.Values`: for each key the list of its values, one entry per key. -/
structure Values where
  entries : List (String × List String)
  deriving DecidableEq, Repr

/-- The call `v.Get(key)`: the first value of the key, or the empty string. -/
def Values.get (v : Values) (key : String) : String :=
  match v.entries.lookup key with
  | some (x :: _) => x
  | _ => ""

/-- Replacing the values of a key in the entries of a `url.Values`. -/
def setEntry (key value : String) : List (String × List String) → List (String × List String)
  | [] => [(key, [value])]
  | (k, vs) :: rest =>
    if k = key then (key, [value]) :: rest else (k, vs) :: setEntry key value rest

/-- The call `v.Set(key, value)`: the key gets the single value. -/
def Values.set (v : Values) (key value : String) : Values :=
  { entries := setEntry key value v.entries }

/-- The body of an HTTP response: its bytes as a string, and what
`json.Unmarshal` finds in them. -/
structure Body where
  text : String
  parsed : Frame

/-- What lines 43-66 of `doRequest` come to: building the request fails,
sending it fails, reading the response body fails, or the exchange completes
with a status code and a body. -/
inductive Exchange
  | createFailed
  | sendFailed
  | readFailed
  | completed (status : Int) (body : Body)

/-- The errors `doRequest` returns, by the format string that builds them. -/
inductive RequestError
  /-- `creating request: %w`. -/
  | creatingRequest
  /-- `executing request: %w`. -/
  | executingRequest
  /-- `reading response: %w`. -/
  | readingResponse
  /-- `API error [%s]: %s` with the code and the message of the body. -/
  | apiError (code message : String)
  /-- `API error: %s` with the body. -/
  | apiErrorBody (body : String)
  /-- `HTTP error %d: %s` with the status code and the body. -/
  | httpError (status : Int) (body : String)
  deriving DecidableEq, Repr

/-- The Go struct `ExceptionResult` of `types.go`. -/
structure ExceptionResult where
  Message : String := ""
  Code : String := ""
  StackTrace : String := ""
  deriving DecidableEq, Repr

/-- The fields of `ExceptionResult` as `json.Unmarshal` fills them. -/
def ExceptionResult.fields : List (Field ExceptionResult) :=
  [ .string "message" (fun s v => { s with Message := v }),
    .string "code" (fun s v => { s with Code := v }),
    .string "stackTrace" (fun s v => { s with StackTrace := v }) ]

/-- The first statement of `doRequest`: the parameters after
`if c.Token != "" && params.Get("id") == "" { params.Set("id", c.Token) }`. -/
def addToken (c : Client) (params : Values) : Values :=
  if c.Token ≠ "" ∧ params.get "id" = "" then params.set "id" c.Token else params

/-- The status handling of `doRequest` (lines 68-81) for a completed exchange. -/
def classifyResponse (status : Int) (body : Body) : Except RequestError String :=
  if status = 201 then
    match unmarshal ExceptionResult.fields body.parsed {} with
    | (apiErr, true) => .error (.apiError apiErr.Code apiErr.Message)
    | (_, false) => .error (.apiErrorBody body.text)
  else if status ≠ 200 then .error (.httpError status body.text)
  else .ok body.text

/-- The method `doRequest`: the parameters as it leaves them (the map is
changed in place) and what it returns.  The method and the endpoint only enter
the request that is sent. -/
def Client.doRequest (c : Client) (_method _endpoint : String) (params : Values)
    (ex : Exchange) : Values × Except RequestError String :=
  (addToken c params,
    match ex with
    | .createFailed => .error .creatingRequest
    | .sendFailed => .error .executingRequest
    | .readFailed => .error .readingResponse
    | .completed status body => classifyResponse status body)

/-- The method `SetToken`. -/
def Client.SetToken (c : Client) (token : String) : Client :=
  { c with Token := token }

/-- The tail shared by `Connect`, `ConnectEx` and `ConnectProxy` after their
parameters are built: the request, and on success `SetToken(string(body))`. -/
def Client.authenticate (c : Client) (endpoint : String) (params : Values) (ex : Exchange) :
    Client × Except RequestError String :=
  match (c.doRequest "GET" endpoint params ex).2 with
  | .error err => (c, .error err)
  | .ok body => (c.SetToken body, .ok body)

/-- The method `Connect`, from the parameters it has built. -/
def Client.Connect (c : Client) (params : Values) (ex : Exchange) :
    Client × Except RequestError String :=
  c.authenticate "/Connect" params ex

/-- The method `ConnectEx`, from the parameters it has built. -/
def Client.ConnectEx (c : Client) (params : Values) (ex : Exchange) :
    Client × Except RequestError String :=
  c.authenticate "/ConnectEx" params ex

/-- The method `ConnectProxy`, from the parameters it has built. -/
def Client.ConnectProxy (c : Client) (params : Values) (ex : Exchange) :
    Client × Except RequestError String :=
  c.authenticate "/ConnectProxy" params ex

/-- The method `Disconnect`: on success `c.Token = ""`. -/
def Client.Disconnect (c : Client) (ex : Exchange) : Client × Except RequestError String :=
  match (c.doRequest "GET" "/Disconnect" { entries := [] } ex).2 with
  | .error err => (c, .error err)
  | .ok body => ({ c with Token := "" }, .ok body)

/-- Every other method of the client that goes through `doRequest`
(`CheckConnect`, `Symbols`, `OpenedOrders`, ...): none assigns the token. -/
def Client.request (c : Client) (endpoint : String) (params : Values) (ex : Exchange) :
    Client × Except RequestError String :=
  (c, (c.doRequest "GET" endpoint params ex).2)

/-- The calls on a client that the token can be watched over. -/
inductive Call
  | Connect (params : Values)
  | ConnectEx (params : Values)
  | ConnectProxy (params : Values)
  | Disconnect
  | SetToken (token : String)
  | other (endpoint : String) (params : Values)

/-- Whether a call is one of the three authentication calls. -/
def Call.isAuthentication : Call → Bool
  | .Connect _ => true
  | .ConnectEx _ => true
  | .ConnectProxy _ => true
  | _ => false

/-- A call on a client under an exchange: the client after it and what the
call returns (`SetToken` returns nothing). -/
def Client.call (c : Client) (ex : Exchange) : Call → Client × Option (Except RequestError String)
  | .Connect params => ((c.Connect params ex).1, some (c.Connect params ex).2)
  | .ConnectEx params => ((c.ConnectEx params ex).1, some (c.ConnectEx params ex).2)
  | .ConnectProxy params => ((c.ConnectProxy params ex).1, some (c.ConnectProxy params ex).2)
  | .Disconnect => ((c.Disconnect ex).1, some (c.Disconnect ex).2)
  | .SetToken token => (c.SetToken token, none)
  | .other endpoint params => ((c.request endpoint params ex).1, some (c.request endpoint params ex).2)

/-! ## The subscription kinds and what `websocket.go` has for them -/

/-- The eight subscription kinds the specification names. -/
inductive SubscriptionKind
  | quotes
  | orderUpdates
  | profitUpdates
  | ohlc
  | tickHistory
  | marketWatch
  | tickValue
  | mail
  deriving DecidableEq, Repr

/-- The endpoint of the single-attempt dial helper of a kind (`OnQuote`,
`OnOrderUpdate`, `OnOrderProfit`, `OnOhlc`, `OnTickHistory`, `OnMarketWatch`,
`OnTickValue`, `OnMail`). -/
def SubscriptionKind.dialEndpoint : SubscriptionKind → String
  | .quotes => "/OnQuote"
  | .orderUpdates => "/OnOrderUpdate"
  | .profitUpdates => "/OnOrderProfit"
  | .ohlc => "/OnOhlc"
  | .tickHistory => "/OnTickHistory"
  | .marketWatch => "/OnMarketWatch"
  | .tickValue => "/OnTickValue"
  | .mail => "/OnMail"

/-- The `SocketOn*` loop that `websocket.go` has for a kind, when it has one:
`SocketOnQuote`, `SocketOnOrderUpdate`, `SocketOnOrderProfit`, `SocketOnOHLC`
and `SocketOnMarketWatch` are all there is. -/
def SubscriptionKind.socketLoop : SubscriptionKind → Option Subscription
  | .quotes => some .quote
  | .orderUpdates => some .orderUpdate
  | .profitUpdates => some .orderProfit
  | .ohlc => some .ohlc
  | .marketWatch => some .marketWatch
  | .tickHistory => none
  | .tickValue => none
  | .mail => none

/-- An action with the endpoint of its dial replaced. -/
def Action.atEndpoint (endpoint : String) : Action → Action
  | .dial _ => .dial endpoint
  | a => a

/-- A step result with the endpoint of its dials replaced. -/
def atEndpoint (endpoint : String) (r : LoopState × List Action) : LoopState × List Action :=
  (r.1, r.2.map (Action.atEndpoint endpoint))

/-! ## `WebSocketConnection.Close` and `ReadQuote` -/

/-- The network connection under a `*websocket.Conn`, as far as closing goes. -/
structure Socket where
  closed : Bool
  deriving DecidableEq, Repr

/-- The error of closing a network connection that is closed already
(`use of closed network connection`). -/
inductive CloseError
  | useOfClosedConnection
  deriving DecidableEq, Repr

/-- The call `conn.Close()` on a `*websocket.Conn`: it closes the network
connection under it, which returns an error when it is closed already. -/
def Socket.Close (s : Socket) : Socket × Option CloseError :=
  if s.closed then (s, some .useOfClosedConnection) else ({ closed := true }, none)

/-- The Go struct `WebSocketConnection`; `conn` is `none` for a nil pointer. -/
structure WebSocketConnection where
  conn : Option Socket
  endpoint : String
  deriving DecidableEq, Repr

/-- The method `WebSocketConnection.Close`: the connection after the call and
the error returned. -/
def WebSocketConnection.Close (ws : WebSocketConnection) :
    WebSocketConnection × Option CloseError :=
  match ws.conn with
  | some s => ({ ws with conn := some s.Close.1 }, s.Close.2)
  | none => (ws, none)

/-- The local type `QuoteWrapper` of `ReadQuote`: `Type string` with tag `type`
and `Quote Quote` with tag `data`. -/
structure QuoteWrapper where
  Type_ : String := ""
  Quote : Mt5api.Quote := {}
  deriving DecidableEq

/-- The fields of `QuoteWrapper` as `json.Unmarshal` fills them. -/
def QuoteWrapper.fields : List (Field QuoteWrapper) :=
  [ .string "type" (fun s v => { s with Type_ := v }),
    .struct "data" (fun s => s.Quote) (fun s v => { s with Quote := v }) Quote.fields ]

/-- The method `ReadQuote` on the result of its `ReadMessage`: the Quote
returned, or `none` when an error is returned. -/
def ReadQuote : ReadResult → Option Quote
  | .error => none
  | .frame raw =>
    match unmarshal QuoteWrapper.fields raw {} with
    | (wrapper, true) => some wrapper.Quote
    | (_, false) => none

/-- Whether the reader goroutine has returned, and closed `done`, after the
given results of its `ReadMessage` calls: each frame is decoded and the loop
goes round again, a read error makes it return. -/
def readerDone {T : Type} (V : Variant T) : List ReadResult → Bool
  | [] => false
  | .error :: _ => true
  | .frame raw :: rest =>
    match decodeFrame V raw with
    | .direct _ => readerDone V rest
    | .enveloped _ => readerDone V rest
    | .dropped => readerDone V rest

/-! # Theorems -/

/-! ## Arithmetic of the backoff -/

theorem maxBackoff_eq : maxBackoff = 300000000000 := by decide

theorem wrapInt64_of_range (x : Int) (h1 : -9223372036854775808 ≤ x)
    (h2 : x ≤ 9223372036854775807) : wrapInt64 x = x := by
  unfold wrapInt64
  rw [Int.emod_eq_of_lt (by omega) (by omega)]
  omega

theorem nextBackoff_eq_min (b : Int) (h1 : 1000000000 ≤ b) (h2 : b ≤ 300000000000) :
    nextBackoff b = min (2 * b) 300000000000 := by
  unfold nextBackoff
  simp only [maxBackoff_eq]
  rw [wrapInt64_of_range (b * 2) (by omega) (by omega)]
  rcases le_or_lt (2 * b) 300000000000 with h | h
  · rw [min_eq_left h, if_neg (by omega)]; omega
  · rw [min_eq_right h.le, if_pos (by omega)]

theorem nextBackoff_range (b : Int) (h1 : 1000000000 ≤ b) (h2 : b ≤ 300000000000) :
    1000000000 ≤ nextBackoff b ∧ nextBackoff b ≤ 300000000000 := by
  rw [nextBackoff_eq_min b h1 h2]
  omega

/-! ## Runs -/

theorem run_cons_eq_some {k : Subscription} {s s2 : LoopState} {e : Event} {es : List Event}
    {acts : List Action} (h : run k s (e :: es) = some (s2, acts)) :
    ∃ s1 a1 a2, step k s e = some (s1, a1) ∧ run k s1 es = some (s2, a2) ∧ acts = a1 ++ a2 := by
  simp only [run] at h
  cases hstep : step k s e with
  | none => simp [hstep] at h
  | some p =>
    obtain ⟨s1, a1⟩ := p
    simp only [hstep] at h
    cases hrun : run k s1 es with
    | none => simp [hrun] at h
    | some q =>
      obtain ⟨s3, a2⟩ := q
      simp only [hrun, Option.some.injEq, Prod.mk.injEq] at h
      obtain ⟨rfl, rfl⟩ := h
      exact ⟨s1, a1, a2, rfl, hrun, rfl⟩

theorem run_cons_of {k : Subscription} {s s1 s2 : LoopState} {e : Event} {es : List Event}
    {a1 a2 : List Action} (h1 : step k s e = some (s1, a1)) (h2 : run k s1 es = some (s2, a2)) :
    run k s (e :: es) = some (s2, a1 ++ a2) := by
  simp [run, h1, h2]

theorem run_append_of {k : Subscription} {t2 : List Event} {s2 : LoopState} {a2 : List Action} :
    ∀ (t1 : List Event) {s s1 : LoopState} {a1 : List Action},
      run k s t1 = some (s1, a1) → run k s1 t2 = some (s2, a2) →
      run k s (t1 ++ t2) = some (s2, a1 ++ a2)
  | [], s, s1, a1, h1, h2 => by
    simp only [run, Option.some.injEq, Prod.mk.injEq] at h1
    obtain ⟨rfl, rfl⟩ := h1
    simpa using h2
  | e :: es, s, s1, a1, h1, h2 => by
    obtain ⟨sm, b1, b2, hs, hr, rfl⟩ := run_cons_eq_some h1
    have := run_append_of es hr h2
    rw [List.cons_append, run_cons_of hs this, List.append_assoc]

theorem run_append_eq_some {k : Subscription} {t2 : List Event} {s2 : LoopState}
    {acts : List Action} :
    ∀ (t1 : List Event) {s : LoopState}, run k s (t1 ++ t2) = some (s2, acts) →
      ∃ s1 a1 a2, run k s t1 = some (s1, a1) ∧ run k s1 t2 = some (s2, a2) ∧ acts = a1 ++ a2
  | [], s, h => ⟨s, [], acts, rfl, by simpa using h, rfl⟩
  | e :: es, s, h => by
    rw [List.cons_append] at h
    obtain ⟨sm, b1, b2, hs, hr, rfl⟩ := run_cons_eq_some h
    obtain ⟨s1, c1, c2, h1, h2, rfl⟩ := run_append_eq_some es hr
    exact ⟨s1, b1 ++ c1, c2, run_cons_of hs h1, h2, by rw [List.append_assoc]⟩

theorem run_single_eq_some {k : Subscription} {s s1 : LoopState} {e : Event} {a : List Action}
    (h : run k s [e] = some (s1, a)) : step k s e = some (s1, a) := by
  obtain ⟨sm, b1, b2, hs, hr, rfl⟩ := run_cons_eq_some h
  simp only [run, Option.some.injEq, Prod.mk.injEq] at hr
  obtain ⟨rfl, rfl⟩ := hr
  simpa using hs

/-- Induction over the states a loop reaches from a given start. -/
theorem run_induction {k : Subscription} {s0 : LoopState}
    (P : List Event → LoopState → List Action → Prop) (h0 : P [] s0 [])
    (hstep : ∀ tr s a e s1 a1, run k s0 tr = some (s, a) → P tr s a →
      step k s e = some (s1, a1) → P (tr ++ [e]) s1 (a ++ a1)) :
    ∀ tr s a, run k s0 tr = some (s, a) → P tr s a := by
  intro tr
  induction tr using List.reverseRecOn with
  | nil =>
    intro s a h
    simp only [run, Option.some.injEq, Prod.mk.injEq] at h
    obtain ⟨rfl, rfl⟩ := h
    exact h0
  | append_singleton es e ih =>
    intro s a h
    obtain ⟨s1, a1, a2, h1, h2, rfl⟩ := run_append_eq_some es h
    exact hstep es s1 a1 e s a2 h1 (ih s1 a1 h1) (run_single_eq_some h2)

theorem consecFailures_snoc (tr : List Event) (e : Event) :
    consecFailures (tr ++ [e]) =
      match e with
      | .dialErr => consecFailures tr + 1
      | .dialOk => 0
      | _ => consecFailures tr := by
  unfold consecFailures
  rw [List.foldl_append]
  cases e <;> rfl

/-! ## Invariant of the loop variables -/

theorem loopInv_init : LoopInv LoopState.init := by
  simp [LoopInv, LoopState.init, Second]

theorem loopInv_step {k : Subscription} {s s1 : LoopState} {e : Event} {a : List Action}
    (hinv : LoopInv s) (h : step k s e = some (s1, a)) : LoopInv s1 := by
  have hn := nextBackoff_range s.backoff hinv.1 hinv.2.1
  obtain ⟨ph, b, c, r⟩ := s
  rcases e with _ | _ | _ | _ | _ | _ | _ | (_ | _) | _ | _ | _ <;> cases ph <;> cases c <;> cases r <;>
    simp [step] at h <;> obtain ⟨rfl, rfl⟩ := h <;> simp_all [LoopInv, Second]

theorem loopInv_run {k : Subscription} {s0 : LoopState} (h0 : LoopInv s0) :
    ∀ (tr : List Event) (s : LoopState) (a : List Action), run k s0 tr = some (s, a) → LoopInv s :=
  run_induction (fun _ s _ => LoopInv s) h0
    (fun _ _ _ _ _ _ _ hP hs => loopInv_step hP hs)

theorem backoffAfter_range (n : Nat) :
    1000000000 ≤ backoffAfter n ∧ backoffAfter n ≤ 300000000000 := by
  unfold backoffAfter Second
  have h1 : 1 ≤ min (2 ^ n) 300 := le_min (Nat.one_le_two_pow) (by norm_num)
  have h2 : min (2 ^ n) 300 ≤ 300 := min_le_right _ _
  omega

theorem nextBackoff_backoffAfter (n : Nat) : nextBackoff (backoffAfter n) = backoffAfter (n + 1) := by
  obtain ⟨h1, h2⟩ := backoffAfter_range n
  rw [nextBackoff_eq_min _ h1 h2]
  unfold backoffAfter Second
  rcases Nat.lt_or_ge n 9 with h | h
  · interval_cases n <;> decide
  · have h9 : 2 ^ 9 ≤ 2 ^ n := Nat.pow_le_pow_right (by norm_num) h
    have h10 : 2 ^ 9 ≤ 2 ^ (n + 1) := Nat.pow_le_pow_right (by norm_num) (by omega)
    rw [min_eq_right (by omega : 300 ≤ 2 ^ n), min_eq_right (by omega : 300 ≤ 2 ^ (n + 1))]
    decide

/-! ## Consecutive dial failures -/

theorem afterFailures_zero : afterFailures 0 = LoopState.init := by decide

theorem run_failedAttempts (k : Subscription) :
    ∀ (n m : Nat), ∃ acts, run k (afterFailures m) (failedAttempts n) = some (afterFailures (m + n), acts)
  | 0, m => ⟨[], rfl⟩
  | n + 1, m => by
    obtain ⟨acts, h⟩ := run_failedAttempts k n (m + 1)
    have h1 : run k (afterFailures m) failedAttempt =
        some (afterFailures (m + 1), [.dial k.endpoint, .waited (backoffAfter m)]) := by
      simp [run, step, failedAttempt, afterFailures, nextBackoff_backoffAfter]
    have h2 := run_append_of failedAttempt h1 h
    rw [show m + 1 + n = m + (n + 1) by omega] at h2
    exact ⟨_, h2⟩

theorem consecFailures_failedAttempts (n : Nat) :
    consecFailures (failedAttempts n ++ [.enter, .connect, .dialErr]) = n + 1 := by
  suffices h : ∀ (n a : Nat), (failedAttempts n ++ [Event.enter, Event.connect, Event.dialErr]).foldl
      (fun n e => match e with
        | Event.dialErr => n + 1
        | Event.dialOk => 0
        | _ => n) a = a + n + 1 by
    have := h n 0
    simpa [consecFailures] using this
  intro n
  induction n with
  | zero =>
    intro a
    simp [failedAttempts]
  | succ n ih =>
    intro a
    simp [failedAttempts, failedAttempt, ih]
    omega

theorem backoffAfter_zero : backoffAfter 0 = Second := by decide

theorem backoffTracks_step {k : Subscription} {tr : List Event} {s s1 : LoopState} {e : Event}
    {a : List Action} (hinv : BackoffTracks tr s) (h : step k s e = some (s1, a)) :
    BackoffTracks (tr ++ [e]) s1 := by
  have hn := nextBackoff_backoffAfter (consecFailures tr - 1)
  obtain ⟨ph, b, c, r⟩ := s
  rcases e with _ | _ | _ | _ | _ | _ | _ | (_ | _) | _ | _ | _ <;> cases ph <;> cases c <;> cases r <;>
    simp [step] at h <;> obtain ⟨rfl, rfl⟩ := h <;>
    simp_all [BackoffTracks, consecFailures_snoc, backoffAfter_zero]

theorem backoffTracks_run {k : Subscription} :
    ∀ (tr : List Event) (s : LoopState) (a : List Action),
      run k LoopState.init tr = some (s, a) → BackoffTracks tr s :=
  run_induction (fun tr s _ => BackoffTracks tr s)
    (by simp [BackoffTracks, LoopState.init, consecFailures, backoffAfter_zero])
    (fun _ _ _ _ _ _ _ hP hs => backoffTracks_step hP hs)

/-- C1: in every subscription loop, whenever the loop is in the wait that
follows a dial failure, that failure is the k-th consecutive one for some
k >= 1 (counted from the loop start or from the last successful dial), the
timer is armed with exactly min(2^(k-1), 300) seconds, and this is the wait that
has elapsed when the timer fires; and for every k >= 1 the k-th consecutive
failure with that wait does occur. -/
theorem dial_failure_wait_is_capped_doubling (k : Subscription) :
    (∀ (tr : List Event) (s : LoopState) (acts : List Action) (d : Int),
      run k LoopState.init tr = some (s, acts) → s.phase = .backoffWait d →
        1 ≤ consecFailures tr ∧
        d = ((min (2 ^ (consecFailures tr - 1)) 300 : Nat) : Int) * Second ∧
        ∃ s1, step k s .timerFired = some (s1, [.waited d])) ∧
    (∀ n : Nat, ∃ (s : LoopState) (acts : List Action),
      run k LoopState.init (failedAttempts n ++ [.enter, .connect, .dialErr]) = some (s, acts) ∧
        consecFailures (failedAttempts n ++ [.enter, .connect, .dialErr]) = n + 1 ∧
        s.phase = .backoffWait (((min (2 ^ n) 300 : Nat) : Int) * Second)) := by
  constructor
  · intro tr s acts d h hp
    have ht := backoffTracks_run tr s acts h
    simp only [BackoffTracks, hp] at ht
    obtain ⟨h1, h2, h3⟩ := ht
    refine ⟨h1, ?_, ?_⟩
    · rw [h2, h3]; rfl
    · exact ⟨{ s with phase := .loopTop, backoff := nextBackoff s.backoff }, by simp [step, hp]⟩
  · intro n
    obtain ⟨acts, h⟩ := run_failedAttempts k n 0
    rw [afterFailures_zero, Nat.zero_add] at h
    have h2 : run k (afterFailures n) [.enter, .connect, .dialErr] =
        some ({ afterFailures n with phase := .backoffWait (backoffAfter n) }, [.dial k.endpoint]) := by
      simp [run, step, afterFailures]
    exact ⟨_, _, run_append_of _ h h2, consecFailures_failedAttempts n, rfl⟩

/-- Instance of C1: the third dial failure in a row of the quote loop is
followed by a wait of 4 seconds. -/
theorem dial_failure_wait_is_capped_doubling_witness :
    run .quote LoopState.init (failedAttempts 2 ++ [.enter, .connect, .dialErr]) =
        some (LoopState.mk (.backoffWait 4000000000) 4000000000 false false,
          [.dial "/OnQuote", .waited 1000000000, .dial "/OnQuote", .waited 2000000000,
           .dial "/OnQuote"]) ∧
      (1 ≤ consecFailures (failedAttempts 2 ++ [.enter, .connect, .dialErr]) ∧
        (4000000000 : Int) =
          ((min (2 ^ (consecFailures (failedAttempts 2 ++ [.enter, .connect, .dialErr]) - 1)) 300 : Nat) : Int)
            * Second ∧
        ∃ s1, step .quote (LoopState.mk (.backoffWait 4000000000) 4000000000 false false)
          .timerFired = some (s1, [.waited 4000000000])) :=
  have h : run .quote LoopState.init (failedAttempts 2 ++ [.enter, .connect, .dialErr]) =
      some (LoopState.mk (.backoffWait 4000000000) 4000000000 false false,
        [.dial "/OnQuote", .waited 1000000000, .dial "/OnQuote", .waited 2000000000,
         .dial "/OnQuote"]) := by decide
  ⟨h, (dial_failure_wait_is_capped_doubling .quote).1 _ _ _ _ h rfl⟩

/-! ## After a successful dial -/

theorem afterDial_step {k : Subscription} {s s1 : LoopState} {e : Event} {a : List Action}
    (hinv : AfterDial s) (he : e ≠ .dialErr) (h : step k s e = some (s1, a)) : AfterDial s1 := by
  obtain ⟨ph, b, c, r⟩ := s
  rcases e with _ | _ | _ | _ | _ | _ | _ | (_ | _) | _ | _ | _ <;> cases ph <;> cases c <;> cases r <;>
    simp [step] at h <;> obtain ⟨rfl, rfl⟩ := h <;> simp_all [AfterDial]

theorem afterDial_run {k : Subscription} :
    ∀ (tr : List Event) {s s1 : LoopState} {a : List Action}, AfterDial s → Event.dialErr ∉ tr →
      run k s tr = some (s1, a) → AfterDial s1
  | [], s, s1, a, hinv, _, h => by
    simp only [run, Option.some.injEq, Prod.mk.injEq] at h
    obtain ⟨rfl, rfl⟩ := h
    exact hinv
  | e :: es, s, s1, a, hinv, hno, h => by
    obtain ⟨sm, b1, b2, hs, hr, rfl⟩ := run_cons_eq_some h
    have he : e ≠ .dialErr := fun hc => hno (by simp [hc])
    exact afterDial_run es (afterDial_step hinv he hs) (fun hc => hno (by simp [hc])) hr

/-- C2: after a successful dial, whatever `backoff` had accumulated before, and
along any continuation up to the next dial failure, `backoff` equals the floor
of 1 second, no backoff timer is armed, a reconnect pause that is entered is the
fixed 1 second, and a dial failure that comes next arms its wait with 1 second. -/
theorem backoff_is_floor_after_dial_success (k : Subscription) (s s1 : LoopState)
    (tr : List Event) (acts : List Action) (hno : Event.dialErr ∉ tr)
    (h : run k s (.dialOk :: tr) = some (s1, acts)) :
    s1.backoff = Second ∧ (∀ d, s1.phase ≠ .backoffWait d) ∧
      (∀ d, s1.phase = .reconnectPause d → d = Second) ∧
      (∀ s2 a2, step k s1 .dialErr = some (s2, a2) → s2.phase = .backoffWait Second) := by
  obtain ⟨sm, b1, b2, hs, hr, rfl⟩ := run_cons_eq_some h
  have hm : AfterDial sm := by
    obtain ⟨ph, b, c, r⟩ := s
    cases ph <;> simp [step] at hs
    obtain ⟨rfl, rfl⟩ := hs
    simp [AfterDial]
  have h1 := afterDial_run tr hm hno hr
  obtain ⟨ph, b, c, r⟩ := s1
  obtain ⟨hb, hph⟩ := h1
  simp only at hb
  subst hb
  refine ⟨rfl, ?_, ?_, ?_⟩
  · intro d hd
    simp only at hd
    subst hd
    exact hph
  · intro d hd
    simp only at hd
    subst hd
    exact hph
  · intro s2 a2 h2
    cases ph <;> simp [step] at h2
    obtain ⟨rfl, rfl⟩ := h2
    rfl

/-- Instance of C2: a quote loop that dials with `backoff` at 64 seconds and
succeeds has `backoff` at 1 second when it is back at the loop head. -/
theorem backoff_is_floor_after_dial_success_witness :
    Event.dialErr ∉ [Event.readErr, Event.doneCase, Event.timerFired, Event.enter, Event.connect] ∧
      run .quote (LoopState.mk .dialing 64000000000 false false)
          [.dialOk, .readErr, .doneCase, .timerFired, .enter, .connect] =
        some (LoopState.mk .dialing 1000000000 false false,
          [.waited 1000000000, .dial "/OnQuote"]) ∧
      ((LoopState.mk .dialing 1000000000 false false).backoff = Second ∧
        (∀ d, (LoopState.mk .dialing 1000000000 false false).phase ≠ .backoffWait d) ∧
        (∀ d, (LoopState.mk .dialing 1000000000 false false).phase = .reconnectPause d →
          d = Second) ∧
        (∀ s2 a2, step .quote (LoopState.mk .dialing 1000000000 false false) .dialErr =
          some (s2, a2) → s2.phase = .backoffWait Second)) :=
  have hno : Event.dialErr ∉ [Event.readErr, Event.doneCase, Event.timerFired, Event.enter, Event.connect] := by
    decide
  have h : run .quote (LoopState.mk .dialing 64000000000 false false)
      [.dialOk, .readErr, .doneCase, .timerFired, .enter, .connect] =
        some (LoopState.mk .dialing 1000000000 false false,
          [.waited 1000000000, .dial "/OnQuote"]) := by decide
  ⟨hno, h, backoff_is_floor_after_dial_success .quote _ _ _ _ hno h⟩

/-! ## Streaming episodes and the fixed pause -/

theorem waits_append (a b : List Action) : waits (a ++ b) = waits a ++ waits b := by
  induction a with
  | nil => rfl
  | cons x xs ih => cases x <;> simp [waits, ih]

theorem run_streaming_traffic {k : Subscription} {s : LoopState} (hs : s.phase = .streaming)
    (hr : s.readerRunning = true) :
    ∀ (mid : List Event), (∀ e ∈ mid, e = Event.frame ∨ e = Event.tick true) →
      ∃ a, run k s mid = some (s, a) ∧ waits a = []
  | [], _ => ⟨[], rfl, rfl⟩
  | e :: es, hmid => by
    obtain ⟨a, ha, hw⟩ := run_streaming_traffic hs hr es (fun x hx => hmid x (by simp [hx]))
    rcases hmid e (by simp) with rfl | rfl
    · exact ⟨[] ++ a, run_cons_of (by simp [step, hr]) ha, by simpa using hw⟩
    · exact ⟨[.ping] ++ a, run_cons_of (by simp [step, hs]) ha, by simpa [waits] using hw⟩

theorem waitsBeforeDial_split : ∀ (pre : List Action) (ep : String) (post : List Action),
    (∀ e, Action.dial e ∉ pre) → waitsBeforeDial (pre ++ .dial ep :: post) = some (waits pre)
  | [], ep, post, _ => rfl
  | .dial e :: as, ep, post, h => absurd (List.mem_cons_self _ _) (h e)
  | .waited d :: as, ep, post, h => by
    have ih := waitsBeforeDial_split as ep post (fun e he => h e (List.mem_cons_of_mem _ he))
    simp [waitsBeforeDial, waits, ih]
  | .ping :: as, ep, post, h => by
    have ih := waitsBeforeDial_split as ep post (fun e he => h e (List.mem_cons_of_mem _ he))
    simp [waitsBeforeDial, waits, ih]
  | .closeConn :: as, ep, post, h => by
    have ih := waitsBeforeDial_split as ep post (fun e he => h e (List.mem_cons_of_mem _ he))
    simp [waitsBeforeDial, waits, ih]
  | .returned :: as, ep, post, h => by
    have ih := waitsBeforeDial_split as ep post (fun e he => h e (List.mem_cons_of_mem _ he))
    simp [waitsBeforeDial, waits, ih]

theorem nextDialAfter_step {k : Subscription} {s s1 : LoopState} {e : Event}
    {a1 a2 : List Action} {w : List Int} (h : step k s e = some (s1, a1))
    (ih : ∀ w2, waitsBeforeDial a2 = some w2 → NextDialAfter s1 w2)
    (hw : waitsBeforeDial (a1 ++ a2) = some w) : NextDialAfter s w := by
  obtain ⟨ph, b, c, r⟩ := s
  rcases e with _ | _ | _ | _ | _ | _ | _ | (_ | _) | _ | _ | _ <;> cases ph <;> cases c <;> cases r <;>
    simp [step] at h <;> obtain ⟨rfl, rfl⟩ := h <;>
    simp_all [NextDialAfter, waitsBeforeDial]
  all_goals
    obtain ⟨w2, hw2, rfl⟩ := hw
    rw [ih w2 hw2]

theorem nextDialAfter_run {k : Subscription} :
    ∀ (tr : List Event) {s s1 : LoopState} {a : List Action} {w : List Int},
      run k s tr = some (s1, a) → waitsBeforeDial a = some w → NextDialAfter s w
  | [], s, s1, a, w, h, hw => by
    simp only [run, Option.some.injEq, Prod.mk.injEq] at h
    obtain ⟨rfl, rfl⟩ := h
    simp [waitsBeforeDial] at hw
  | e :: es, s, s1, a, w, h, hw => by
    obtain ⟨sm, b1, b2, hs, hr, rfl⟩ := run_cons_eq_some h
    exact nextDialAfter_step hs (fun w2 hw2 => nextDialAfter_run es hr hw2) hw

/-- C3: take a loop inside `ConnectWebSocket` with any accumulated `backoff`
and let the dial succeed.  Along every continuation, the waits that elapse
before the next dial are exactly one wait of 1 second (the fixed pause, not
`backoff`); a dial failure that comes next arms its wait with the floor of
1 second; and when frames are read, pings are sent and the read then fails,
the loop does arm that pause of 1 second, and after it dials again. -/
theorem read_failure_waits_fixed_pause (k : Subscription) (s : LoopState)
    (hs : s.phase = .dialing) :
    (∀ (tr : List Event) (s1 : LoopState) (acts pre post : List Action) (ep : String),
      run k s (.dialOk :: tr) = some (s1, acts) → acts = pre ++ .dial ep :: post →
        (∀ e, Action.dial e ∉ pre) → waits pre = [Second]) ∧
    (∀ (tr : List Event) (s1 : LoopState) (acts : List Action),
      Event.dialErr ∉ tr → run k s (.dialOk :: (tr ++ [.dialErr])) = some (s1, acts) →
        s1.phase = .backoffWait Second) ∧
    (s.ctxDone = false → ∀ mid : List Event, (∀ e ∈ mid, e = Event.frame ∨ e = Event.tick true) →
      ∃ a1, run k s (.dialOk :: mid ++ [.readErr, .doneCase]) =
          some ({ s with phase := .reconnectPause Second, backoff := Second,
                         readerRunning := false }, a1) ∧
        waits a1 = [] ∧
        run k { s with phase := .reconnectPause Second, backoff := Second,
                       readerRunning := false } [.timerFired, .enter, .connect, .dialErr] =
          some ({ s with phase := .backoffWait Second, backoff := Second,
                         readerRunning := false },
            [.waited Second, .dial k.endpoint])) := by
  obtain ⟨ph, b, c, r⟩ := s
  simp only at hs
  subst hs
  have h4 : step k (LoopState.mk .dialing b c r) .dialOk =
      some (LoopState.mk .streaming Second c true, []) := by
    simp [step]
  refine ⟨?_, ?_, ?_⟩
  · intro tr s1 acts pre post ep h hsplit hpre
    obtain ⟨sm, b1, b2, hsm, hr, rfl⟩ := run_cons_eq_some h
    rw [h4] at hsm
    simp only [Option.some.injEq, Prod.mk.injEq] at hsm
    obtain ⟨rfl, rfl⟩ := hsm
    rw [List.nil_append] at hsplit
    have hw := waitsBeforeDial_split pre ep post hpre
    rw [← hsplit] at hw
    simpa [NextDialAfter] using nextDialAfter_run tr hr hw
  · intro tr s1 acts hno h
    obtain ⟨sm, b1, b2, hsm, hr, rfl⟩ := run_cons_eq_some h
    rw [h4] at hsm
    simp only [Option.some.injEq, Prod.mk.injEq] at hsm
    obtain ⟨rfl, rfl⟩ := hsm
    obtain ⟨s2, c1, c2, hr1, hr2, -⟩ := run_append_eq_some tr hr
    have had : AfterDial s2 := afterDial_run tr (by simp [AfterDial]) hno hr1
    have hst := run_single_eq_some hr2
    obtain ⟨ph2, bb, cc, rr⟩ := s2
    obtain ⟨hb, -⟩ := had
    simp only at hb
    subst hb
    cases ph2 <;> simp [step] at hst
    obtain ⟨rfl, rfl⟩ := hst
    rfl
  · intro hc mid hmid
    simp only at hc
    subst hc
    obtain ⟨a, ha, hw⟩ := run_streaming_traffic (k := k)
      (s := LoopState.mk .streaming Second false true) rfl rfl mid hmid
    have h2 : run k (LoopState.mk .streaming Second false true) [.readErr, .doneCase] =
        some (LoopState.mk (.reconnectPause Second) Second false false, []) := by
      simp [run, step]
    have h3 := run_append_of mid ha h2
    refine ⟨[] ++ (a ++ []), ?_, by simpa using hw, by simp [run, step]⟩
    exact run_cons_of h4 h3

/-- Instance of C3: the quote loop dials successfully with `backoff` at 64
seconds, reads one frame, sends one ping, and then the read fails. -/
theorem read_failure_waits_fixed_pause_witness :
    run .quote (LoopState.mk .dialing 64000000000 false false)
        (.dialOk :: [.frame, .tick true, .readErr, .doneCase, .timerFired, .enter, .connect]) =
      some (LoopState.mk .dialing 1000000000 false false,
        [.ping, .waited 1000000000] ++ .dial "/OnQuote" :: []) ∧
    waits [Action.ping, Action.waited 1000000000] = [Second] :=
  have h : run .quote (LoopState.mk .dialing 64000000000 false false)
      (.dialOk :: [.frame, .tick true, .readErr, .doneCase, .timerFired, .enter, .connect]) =
      some (LoopState.mk .dialing 1000000000 false false,
        [.ping, .waited 1000000000] ++ .dial "/OnQuote" :: []) := by decide
  ⟨h, (read_failure_waits_fixed_pause .quote (LoopState.mk .dialing 64000000000 false false)
    rfl).1 _ _ _ _ _ _ h rfl (fun _ hm => by simp at hm)⟩

/-! ## The backoff scenario, the ceiling and the bounds -/

/-- C6: in each loop, three dial failures in a row are followed by waits of
1, 2 and 4 seconds; when the fourth dial succeeds and the read activity then
fails, the wait that follows is the fixed pause of 1 second and not 8 seconds. -/
theorem three_failures_then_stream_failure (k : Subscription) :
    (run k LoopState.init
        [.enter, .connect, .dialErr, .timerFired, .enter, .connect, .dialErr, .timerFired,
         .enter, .connect, .dialErr, .timerFired]).map (fun p => waits p.2) =
      some [1 * Second, 2 * Second, 4 * Second] ∧
    (run k LoopState.init
        [.enter, .connect, .dialErr, .timerFired, .enter, .connect, .dialErr, .timerFired,
         .enter, .connect, .dialErr, .timerFired,
         .enter, .connect, .dialOk, .readErr, .doneCase, .timerFired]).map (fun p => waits p.2) =
      some [1 * Second, 2 * Second, 4 * Second, 1 * Second] ∧
    (run k LoopState.init
        [.enter, .connect, .dialErr, .timerFired, .enter, .connect, .dialErr, .timerFired,
         .enter, .connect, .dialErr, .timerFired,
         .enter, .connect, .dialOk, .readErr, .doneCase]).map (fun p => p.1.phase) =
      some (.reconnectPause (1 * Second)) ∧
    (1 * Second ≠ 8 * Second) := by
  cases k <;> decide

/-- C7 as stated fails at the ceiling: after the ninth dial failure in a row
the quote loop waits with `backoff` at 256 seconds, and when that wait has
elapsed `backoff` is 300 seconds, which is not twice 256 seconds. -/
theorem backoff_not_doubled_at_ceiling :
    (run .quote LoopState.init (failedAttempts 8 ++ [.enter, .connect, .dialErr])).map (fun p => p.1) =
        some (LoopState.mk (.backoffWait (256 * Second)) (256 * Second) false false) ∧
      (step .quote (LoopState.mk (.backoffWait (256 * Second)) (256 * Second) false false)
          .timerFired).map (fun p => p.1.backoff) = some (300 * Second) ∧
      300 * Second ≠ 2 * (256 * Second) := by
  decide

/-- C7, amended: along any run of a loop, when the wait after a dial failure
has elapsed, `backoff` is the smaller of twice its value before and the ceiling
of 5 minutes; it starts from the floor of 1 second. -/
theorem backoff_doubles_up_to_ceiling (k : Subscription) (tr : List Event) (s s1 : LoopState)
    (acts a1 : List Action) (d : Int) (h : run k LoopState.init tr = some (s, acts))
    (hp : s.phase = .backoffWait d) (hs : step k s .timerFired = some (s1, a1)) :
    s1.backoff = min (2 * s.backoff) (5 * Minute) ∧ LoopState.init.backoff = Second := by
  have hinv := loopInv_run loopInv_init tr s acts h
  obtain ⟨ph, b, c, r⟩ := s
  simp only at hp
  subst hp
  simp [step] at hs
  obtain ⟨rfl, rfl⟩ := hs
  refine ⟨?_, rfl⟩
  simp only
  rw [nextBackoff_eq_min b hinv.1 hinv.2.1]
  rfl

/-- Instance of C7, amended: in the quote loop the wait after the second dial
failure in a row takes `backoff` from 2 seconds to 4 seconds. -/
theorem backoff_doubles_up_to_ceiling_witness :
    run .quote LoopState.init [.enter, .connect, .dialErr, .timerFired, .enter, .connect, .dialErr] =
        some (LoopState.mk (.backoffWait 2000000000) 2000000000 false false,
          [.dial "/OnQuote", .waited 1000000000, .dial "/OnQuote"]) ∧
      step .quote (LoopState.mk (.backoffWait 2000000000) 2000000000 false false) .timerFired =
        some (LoopState.mk .loopTop 4000000000 false false, [.waited 2000000000]) ∧
      ((LoopState.mk .loopTop 4000000000 false false).backoff =
          min (2 * (LoopState.mk (.backoffWait 2000000000) 2000000000 false false).backoff)
            (5 * Minute) ∧
        LoopState.init.backoff = Second) :=
  have h : run .quote LoopState.init [.enter, .connect, .dialErr, .timerFired, .enter, .connect, .dialErr] =
      some (LoopState.mk (.backoffWait 2000000000) 2000000000 false false,
        [.dial "/OnQuote", .waited 1000000000, .dial "/OnQuote"]) := by decide
  have hs : step .quote (LoopState.mk (.backoffWait 2000000000) 2000000000 false false)
      .timerFired = some (LoopState.mk .loopTop 4000000000 false false, [.waited 2000000000]) := by
    decide
  ⟨h, hs, backoff_doubles_up_to_ceiling .quote _ _ _ _ _ _ h rfl hs⟩

/-- C8: in every state a loop reaches, along any sequence of events, `backoff`
lies between 1 second and 5 minutes inclusive, and twice `backoff` fits the
signed 64-bit range, so that the doubling `backoff *= 2` does not wrap. -/
theorem backoff_within_bounds (k : Subscription) (tr : List Event) (s : LoopState)
    (acts : List Action) (h : run k LoopState.init tr = some (s, acts)) :
    Second ≤ s.backoff ∧ s.backoff ≤ 5 * Minute ∧
      -9223372036854775808 ≤ s.backoff * 2 ∧ s.backoff * 2 ≤ 9223372036854775807 ∧
      wrapInt64 (s.backoff * 2) = s.backoff * 2 := by
  obtain ⟨h1, h2, -⟩ := loopInv_run loopInv_init tr s acts h
  have h3 : -9223372036854775808 ≤ s.backoff * 2 := by omega
  have h4 : s.backoff * 2 ≤ 9223372036854775807 := by omega
  exact ⟨h1, h2, h3, h4, wrapInt64_of_range _ h3 h4⟩

/-- Instance of C8: the quote loop after two dial failures in a row, a successful
dial and a failed read. -/
theorem backoff_within_bounds_witness :
    (run .quote LoopState.init
        ([.enter, .connect, .dialErr, .timerFired, .enter, .connect, .dialErr, .timerFired] ++
          [.enter, .connect, .dialOk, .tick true, .readErr, .doneCase]) =
      some (LoopState.mk (.reconnectPause 1000000000) 1000000000 false false,
        [.dial "/OnQuote", .waited 1000000000, .dial "/OnQuote", .waited 2000000000,
         .dial "/OnQuote", .ping])) ∧
    (Second ≤ (LoopState.mk (.reconnectPause 1000000000) 1000000000 false false).backoff ∧
      (LoopState.mk (.reconnectPause 1000000000) 1000000000 false false).backoff ≤ 5 * Minute ∧
      -9223372036854775808 ≤
        (LoopState.mk (.reconnectPause 1000000000) 1000000000 false false).backoff * 2 ∧
      (LoopState.mk (.reconnectPause 1000000000) 1000000000 false false).backoff * 2 ≤
        9223372036854775807 ∧
      wrapInt64 ((LoopState.mk (.reconnectPause 1000000000) 1000000000 false false).backoff * 2) =
        (LoopState.mk (.reconnectPause 1000000000) 1000000000 false false).backoff * 2) :=
  have h : run .quote LoopState.init
      ([.enter, .connect, .dialErr, .timerFired, .enter, .connect, .dialErr, .timerFired] ++
        [.enter, .connect, .dialOk, .tick true, .readErr, .doneCase]) =
      some (LoopState.mk (.reconnectPause 1000000000) 1000000000 false false,
        [.dial "/OnQuote", .waited 1000000000, .dial "/OnQuote", .waited 2000000000,
         .dial "/OnQuote", .ping]) := by decide
  ⟨h, backoff_within_bounds .quote _ _ _ h⟩

/-! ## Waits between connection attempts -/

theorem gapsOk_mono : ∀ (as : List Action), gapsOk false as = true → gapsOk true as = true
  | [], _ => rfl
  | .dial _ :: _, h => by simp [gapsOk] at h
  | .waited d :: as, h => by
    simp only [gapsOk] at h ⊢
    split
    · simpa [*] using h
    · simp only [*, if_false] at h
      exact gapsOk_mono as h
  | .ping :: as, h => by
    simp only [gapsOk] at h ⊢
    exact gapsOk_mono as h
  | .closeConn :: as, h => by
    simp only [gapsOk] at h ⊢
    exact gapsOk_mono as h
  | .returned :: as, h => by
    simp only [gapsOk] at h ⊢
    exact gapsOk_mono as h

/-- After a `dial` the scan only lets a second `dial` through when a wait of at
least one second lies in between. -/
theorem gapsOk_false_dial : ∀ (mid : List Action) (e : String) (post : List Action),
    gapsOk false (mid ++ .dial e :: post) = true → ∃ d, Action.waited d ∈ mid ∧ Second ≤ d
  | [], e, post, h => by simp [gapsOk] at h
  | .dial _ :: _, e, post, h => by simp [gapsOk] at h
  | .waited d :: as, e, post, h => by
    by_cases hd : Second ≤ d
    · exact ⟨d, by simp, hd⟩
    · simp only [List.cons_append, gapsOk, hd, if_false] at h
      obtain ⟨d1, hm, h1⟩ := gapsOk_false_dial as e post h
      exact ⟨d1, by simp [hm], h1⟩
  | .ping :: as, e, post, h => by
    simp only [List.cons_append, gapsOk] at h
    obtain ⟨d1, hm, h1⟩ := gapsOk_false_dial as e post h
    exact ⟨d1, by simp [hm], h1⟩
  | .closeConn :: as, e, post, h => by
    simp only [List.cons_append, gapsOk] at h
    obtain ⟨d1, hm, h1⟩ := gapsOk_false_dial as e post h
    exact ⟨d1, by simp [hm], h1⟩
  | .returned :: as, e, post, h => by
    simp only [List.cons_append, gapsOk] at h
    obtain ⟨d1, hm, h1⟩ := gapsOk_false_dial as e post h
    exact ⟨d1, by simp [hm], h1⟩

theorem gapsOk_between : ∀ (pre : List Action) (fresh : Bool) (e1 e2 : String)
    (mid post : List Action),
    gapsOk fresh (pre ++ .dial e1 :: (mid ++ .dial e2 :: post)) = true →
      ∃ d, Action.waited d ∈ mid ∧ Second ≤ d
  | [], fresh, e1, e2, mid, post, h => by
    simp only [List.nil_append, gapsOk, Bool.and_eq_true] at h
    exact gapsOk_false_dial mid e2 post h.2
  | .dial _ :: as, fresh, e1, e2, mid, post, h => by
    simp only [List.cons_append, gapsOk, Bool.and_eq_true] at h
    exact gapsOk_between as false e1 e2 mid post h.2
  | .waited d :: as, fresh, e1, e2, mid, post, h => by
    simp only [List.cons_append, gapsOk] at h
    split at h
    · exact gapsOk_between as true e1 e2 mid post h
    · exact gapsOk_between as fresh e1 e2 mid post h
  | .ping :: as, fresh, e1, e2, mid, post, h => by
    simp only [List.cons_append, gapsOk] at h
    exact gapsOk_between as fresh e1 e2 mid post h
  | .closeConn :: as, fresh, e1, e2, mid, post, h => by
    simp only [List.cons_append, gapsOk] at h
    exact gapsOk_between as fresh e1 e2 mid post h
  | .returned :: as, fresh, e1, e2, mid, post, h => by
    simp only [List.cons_append, gapsOk] at h
    exact gapsOk_between as fresh e1 e2 mid post h

theorem gapsOk_step {k : Subscription} {s s1 : LoopState} {e : Event} {a1 a2 : List Action}
    (hinv : LoopInv s) (h : step k s e = some (s1, a1))
    (ih : gapsOk (atLoopTop s1) a2 = true) : gapsOk (atLoopTop s) (a1 ++ a2) = true := by
  have hm := gapsOk_mono a2
  obtain ⟨ph, b, c, r⟩ := s
  rcases e with _ | _ | _ | _ | _ | _ | _ | (_ | _) | _ | _ | _ <;> cases ph <;> cases c <;> cases r <;>
    simp [step] at h <;> obtain ⟨rfl, rfl⟩ := h <;>
    simp_all [LoopInv, atLoopTop, gapsOk, Second]

theorem gapsOk_run {k : Subscription} :
    ∀ (tr : List Event) {s s1 : LoopState} {a : List Action}, LoopInv s →
      run k s tr = some (s1, a) → gapsOk (atLoopTop s) a = true
  | [], s, s1, a, _, h => by
    simp only [run, Option.some.injEq, Prod.mk.injEq] at h
    obtain ⟨rfl, rfl⟩ := h
    rfl
  | e :: es, s, s1, a, hinv, h => by
    obtain ⟨sm, b1, b2, hs, hr, rfl⟩ := run_cons_eq_some h
    exact gapsOk_step hinv hs (gapsOk_run es (loopInv_step hinv hs) hr)

/-- C9: in the actions of any run of a loop, between any two dial attempts
(so in particular between two consecutive ones, whether the first failed or
opened a connection whose streaming ended) a timed wait of at least 1 second
has elapsed. -/
theorem wait_between_dials (k : Subscription) (tr : List Event) (s : LoopState)
    (acts pre mid post : List Action) (e1 e2 : String)
    (h : run k LoopState.init tr = some (s, acts))
    (hsplit : acts = pre ++ .dial e1 :: (mid ++ .dial e2 :: post)) :
    ∃ d, Action.waited d ∈ mid ∧ Second ≤ d := by
  have hg := gapsOk_run tr loopInv_init h
  rw [hsplit] at hg
  exact gapsOk_between pre _ e1 e2 mid post hg

/-- Instance of C9: the quote loop dials, fails, waits 1 second, dials and
succeeds, the read fails, the loop pauses 1 second and dials again. -/
theorem wait_between_dials_witness :
    run .quote LoopState.init
        [.enter, .connect, .dialErr, .timerFired, .enter, .connect, .dialOk, .readErr, .doneCase,
         .timerFired, .enter, .connect] =
      some (LoopState.mk .dialing 1000000000 false false,
        [.dial "/OnQuote", .waited 1000000000] ++
          .dial "/OnQuote" :: ([.waited 1000000000] ++ .dial "/OnQuote" :: [])) ∧
    ∃ d, Action.waited d ∈ [Action.waited 1000000000] ∧ Second ≤ d :=
  have h : run .quote LoopState.init
      [.enter, .connect, .dialErr, .timerFired, .enter, .connect, .dialOk, .readErr, .doneCase,
         .timerFired, .enter, .connect] =
      some (LoopState.mk .dialing 1000000000 false false,
        [.dial "/OnQuote", .waited 1000000000] ++
          .dial "/OnQuote" :: ([.waited 1000000000] ++ .dial "/OnQuote" :: [])) := by decide
  ⟨h, wait_between_dials .quote _ _ _ _ _ _ _ _ h rfl⟩

/-! ## Cancellation, heartbeat failure and `Close` -/

theorem step_keeps_ctxDone {k : Subscription} {s s1 : LoopState} {e : Event} {a : List Action}
    (hc : s.ctxDone = true) (hp : s.phase ≠ .defaultBranch) (h : step k s e = some (s1, a)) :
    s1.ctxDone = true ∧ s1.phase ≠ .defaultBranch ∧ ∀ ep, Action.dial ep ∉ a := by
  obtain ⟨ph, b, c, r⟩ := s
  simp only at hc
  subst hc
  rcases e with _ | _ | _ | _ | _ | _ | _ | (_ | _) | _ | _ | _ <;> cases ph <;> cases r <;>
    simp [step] at h <;> obtain ⟨rfl, rfl⟩ := h <;> simp_all

theorem no_dial_when_cancelled {k : Subscription} :
    ∀ (tr : List Event) {s s1 : LoopState} {a : List Action}, s.ctxDone = true →
      s.phase ≠ .defaultBranch → run k s tr = some (s1, a) → ∀ ep, Action.dial ep ∉ a
  | [], s, s1, a, _, _, h => by
    simp only [run, Option.some.injEq, Prod.mk.injEq] at h
    obtain ⟨rfl, rfl⟩ := h
    simp
  | e :: es, s, s1, a, hc, hp, h => by
    obtain ⟨sm, b1, b2, hs, hr, rfl⟩ := run_cons_eq_some h
    obtain ⟨hc1, hp1, hd⟩ := step_keeps_ctxDone hc hp hs
    intro ep hmem
    rcases List.mem_append.1 hmem with hm | hm
    · exact hd ep hm
    · exact no_dial_when_cancelled es hc1 hp1 hr ep hm

theorem dials_append (a b : List Action) : dials (a ++ b) = dials a + dials b := by
  induction a with
  | nil => simp [dials]
  | cons x xs ih =>
    cases x <;> simp [dials, ih]
    omega

theorem step_dials_when_cancelled {k : Subscription} {s s1 : LoopState} {e : Event}
    {a : List Action} (hc : s.ctxDone = true) (h : step k s e = some (s1, a)) :
    s1.ctxDone = true ∧
      dials a + (if s1.phase = .defaultBranch then 1 else 0) ≤
        (if s.phase = .defaultBranch then 1 else 0) := by
  obtain ⟨ph, b, c, r⟩ := s
  simp only at hc
  subst hc
  rcases e with _ | _ | _ | _ | _ | _ | _ | (_ | _) | _ | _ | _ <;> cases ph <;> cases r <;>
    simp [step] at h <;> obtain ⟨rfl, rfl⟩ := h <;> simp [dials]

theorem dials_when_cancelled {k : Subscription} :
    ∀ (tr : List Event) {s s1 : LoopState} {a : List Action}, s.ctxDone = true →
      run k s tr = some (s1, a) →
        dials a + (if s1.phase = .defaultBranch then 1 else 0) ≤
          (if s.phase = .defaultBranch then 1 else 0)
  | [], s, s1, a, _, h => by
    simp only [run, Option.some.injEq, Prod.mk.injEq] at h
    obtain ⟨rfl, rfl⟩ := h
    simp [dials]
  | e :: es, s, s1, a, hc, h => by
    obtain ⟨sm, b1, b2, hs, hr, rfl⟩ := run_cons_eq_some h
    obtain ⟨hc1, hd⟩ := step_dials_when_cancelled hc hs
    have ih := dials_when_cancelled es hc1 hr
    rw [dials_append]
    omega

theorem step_never_closes {k : Subscription} {s s1 : LoopState} {e : Event} {a : List Action}
    (h : step k s e = some (s1, a)) : Action.closeConn ∉ a := by
  obtain ⟨ph, b, c, r⟩ := s
  rcases e with _ | _ | _ | _ | _ | _ | _ | (_ | _) | _ | _ | _ <;> cases ph <;> cases c <;> cases r <;>
    simp [step] at h <;> obtain ⟨rfl, rfl⟩ := h <;> simp

theorem run_never_closes {k : Subscription} :
    ∀ (tr : List Event) {s s1 : LoopState} {a : List Action},
      run k s tr = some (s1, a) → Action.closeConn ∉ a
  | [], s, s1, a, h => by
    simp only [run, Option.some.injEq, Prod.mk.injEq] at h
    obtain ⟨rfl, rfl⟩ := h
    simp
  | e :: es, s, s1, a, h => by
    obtain ⟨sm, b1, b2, hs, hr, rfl⟩ := run_cons_eq_some h
    intro hmem
    rcases List.mem_append.1 hmem with hm | hm
    · exact step_never_closes hs hm
    · exact run_never_closes es hr hm

/-- C4 as stated fails: in the order-update loop, after a successful dial, a
frame and a successful ping, a failing ping makes the function return while
the context is not cancelled and the reader is still running; no `Close` is
called, no pause is waited, and from the state reached neither a timer nor a
new dial can follow. -/
theorem ping_failure_does_not_reconnect :
    run .orderUpdate LoopState.init [.enter, .connect, .dialOk, .frame, .tick true, .tick false] =
        some (LoopState.mk .stopped Second false true,
          [.dial "/OnOrderUpdate", .ping, .ping, .returned]) ∧
      step .orderUpdate (LoopState.mk .stopped Second false true) .timerFired = none ∧
      step .orderUpdate (LoopState.mk .stopped Second false true) .enter = none ∧
      step .orderUpdate (LoopState.mk .stopped Second false true) .doneCase = none := by
  decide

/-- C4, amended: when a heartbeat ping fails during streaming while the reader
is still running and the context is not cancelled, the loop has sent the ping,
does not call `Close` on the connection, neither then nor at any later point,
and leaves the reader of that connection running, the context uncancelled and
`backoff` as it was. -/
theorem ping_failure_leaves_connection_unclosed (k : Subscription) (s : LoopState)
    (hs : s.phase = .streaming) (hr : s.readerRunning = true) (hc : s.ctxDone = false) :
    ∃ s1 a1, step k s (.tick false) = some (s1, a1) ∧ Action.ping ∈ a1 ∧
      Action.closeConn ∉ a1 ∧ s1.readerRunning = true ∧ s1.ctxDone = false ∧
      s1.backoff = s.backoff ∧
      ∀ tr s2 a2, run k s1 tr = some (s2, a2) → Action.closeConn ∉ a2 := by
  refine ⟨{ s with phase := .stopped }, [.ping, .returned], by simp [step, hs], by simp,
    by simp, hr, hc, rfl, ?_⟩
  intro tr s2 a2 h
  exact run_never_closes tr h

/-- Instance of C4, amended: the quote loop in its streaming select, reader
running, context not cancelled. -/
theorem ping_failure_leaves_connection_unclosed_witness :
    ∃ s1 a1, step .quote (LoopState.mk .streaming Second false true) (.tick false) =
        some (s1, a1) ∧ Action.ping ∈ a1 ∧
      Action.closeConn ∉ a1 ∧ s1.readerRunning = true ∧ s1.ctxDone = false ∧
      s1.backoff = (LoopState.mk .streaming Second false true).backoff ∧
      ∀ tr s2 a2, run .quote s1 tr = some (s2, a2) → Action.closeConn ∉ a2 :=
  ping_failure_leaves_connection_unclosed .quote (LoopState.mk .streaming Second false true)
    rfl rfl rfl

/-- C5 on the code: in the quote loop, after a successful dial, a failing
heartbeat ping makes `SocketOnQuote` return although the context was never
cancelled. -/
theorem ping_failure_stops_uncancelled_loop :
    Event.cancel ∉ [Event.enter, Event.connect, Event.dialOk, Event.tick false] ∧
      run .quote LoopState.init [.enter, .connect, .dialOk, .tick false] =
        some (LoopState.mk .stopped Second false true, [.dial "/OnQuote", .ping, .returned]) := by
  decide

/-- C10 as stated fails: the quote loop evaluates the outer `select` while the
context is not cancelled and takes `default`; the context is cancelled before
the next statement runs; the call of `ConnectWebSocket` is then still made, so
a connection attempt is started after the cancel event. -/
theorem dial_after_cancel_in_default_branch :
    run .quote LoopState.init [.enter] =
        some (LoopState.mk .defaultBranch Second false false, []) ∧
      run .quote (LoopState.mk .defaultBranch Second false false) (.cancel :: [.connect]) =
        some (LoopState.mk .dialing Second true false, [.dial "/OnQuote"]) ∧
      Action.dial "/OnQuote" ∈ [Action.dial "/OnQuote"] := by
  decide

/-- C10, amended: when the context is cancelled while a loop is at its head,
inside a dial, streaming, in the backoff wait, in the reconnect pause or has
returned, no connection attempt is started along any continuation; and
whatever the state at the cancel, the one between the `default` branch being
taken and the call of `ConnectWebSocket` included, at most one connection
attempt is started after it. -/
theorem no_dial_after_cancel_outside_default_branch (k : Subscription) (s s1 : LoopState)
    (tr : List Event) (acts : List Action) (h : run k s (.cancel :: tr) = some (s1, acts)) :
    (s.phase ≠ .defaultBranch → ∀ ep, Action.dial ep ∉ acts) ∧ dials acts ≤ 1 := by
  obtain ⟨sm, b1, b2, hs, hr, rfl⟩ := run_cons_eq_some h
  simp only [step, Option.some.injEq, Prod.mk.injEq] at hs
  obtain ⟨rfl, rfl⟩ := hs
  constructor
  · intro hp ep
    simpa using no_dial_when_cancelled tr (s := { s with ctxDone := true }) rfl hp hr ep
  · have hd := dials_when_cancelled tr (s := { s with ctxDone := true }) rfl hr
    rw [dials_append]
    simp only [dials, Nat.zero_add]
    split at hd <;> split at hd <;> omega

/-- Instance of C10, amended: the quote loop is cancelled during a backoff wait
whose timer then wins the select; the loop head returns without dialling. -/
theorem no_dial_after_cancel_outside_default_branch_witness :
    run .quote (LoopState.mk (.backoffWait 2000000000) 2000000000 false false)
        (.cancel :: [.timerFired, .enter]) =
      some (LoopState.mk .stopped 4000000000 true false, [.waited 2000000000, .returned]) ∧
    (((LoopState.mk (.backoffWait 2000000000) 2000000000 false false).phase ≠ .defaultBranch →
        ∀ ep, Action.dial ep ∉ [Action.waited 2000000000, Action.returned]) ∧
      dials [Action.waited 2000000000, Action.returned] ≤ 1) :=
  have h : run .quote (LoopState.mk (.backoffWait 2000000000) 2000000000 false false)
      (.cancel :: [.timerFired, .enter]) =
      some (LoopState.mk .stopped 4000000000 true false, [.waited 2000000000, .returned]) := by
    decide
  ⟨h, no_dial_after_cancel_outside_default_branch .quote _ _ _ _ h⟩

/-! ## Waits and cancellation, connections opened and closed -/

/-- C11 on the code: the quote loop is cancelled while it sleeps in the fixed
reconnect pause.  The pause has no `ctx.Done()` case, the loop stays in it
until the timer expires, and only then the loop head returns.  The backoff
wait and the streaming select, cancelled in the same way, do return at once. -/
theorem reconnect_pause_ignores_cancel :
    run .quote LoopState.init [.enter, .connect, .dialOk, .readErr, .doneCase, .cancel] =
        some (LoopState.mk (.reconnectPause Second) Second true false, [.dial "/OnQuote"]) ∧
      step .quote (LoopState.mk (.reconnectPause Second) Second true false) .ctxCase = none ∧
      step .quote (LoopState.mk (.reconnectPause Second) Second true false) .enter = none ∧
      run .quote (LoopState.mk (.reconnectPause Second) Second true false) [.timerFired, .enter] =
        some (LoopState.mk .stopped Second true false, [.waited Second, .returned]) ∧
      step .quote (LoopState.mk (.backoffWait Second) Second true false) .ctxCase =
        some (LoopState.mk .stopped Second true false, [.returned]) ∧
      step .quote (LoopState.mk .streaming Second true true) .ctxCase =
        some (LoopState.mk .stopped Second true true, [.returned]) := by
  decide

/-- C12 as stated fails: the order-update loop leaves a streaming episode
because the read ended and dials again, leaves the next one because a ping
failed and returns; no `Close` is among its actions.  The profit loop leaves
its episode on cancellation and returns without a `Close` either. -/
theorem streaming_left_without_close :
    run .orderUpdate LoopState.init
        [.enter, .connect, .dialOk, .readErr, .doneCase, .timerFired, .enter, .connect, .dialOk, .tick false] =
      some (LoopState.mk .stopped Second false true,
        [.dial "/OnOrderUpdate", .waited Second, .dial "/OnOrderUpdate", .ping, .returned]) ∧
    run .orderProfit LoopState.init [.enter, .connect, .dialOk, .cancel, .ctxCase] =
      some (LoopState.mk .stopped Second true true, [.dial "/OnOrderProfit", .returned]) ∧
    Action.closeConn ∉
      [Action.dial "/OnOrderUpdate", .waited Second, .dial "/OnOrderUpdate", .ping, .returned] ∧
    Action.closeConn ∉ [Action.dial "/OnOrderProfit", .returned] := by
  decide

/-- C12, amended: along every run of a loop, however its streaming episodes
end, the loop makes no `Close` call: the count of `Close` calls among its
actions is zero in every state it reaches. -/
theorem loop_never_closes_connection (k : Subscription) (tr : List Event) (s : LoopState)
    (acts : List Action) (h : run k LoopState.init tr = some (s, acts)) :
    Action.closeConn ∉ acts ∧ closed acts = 0 := by
  have hc := run_never_closes tr h
  exact ⟨hc, List.count_eq_zero.2 hc⟩

/-- Instance of C12, amended: the market-watch loop after a streaming episode
ended by the reader and a new dial. -/
theorem loop_never_closes_connection_witness :
    run .marketWatch LoopState.init [.enter, .connect, .dialOk, .readErr, .doneCase, .timerFired, .enter, .connect] =
      some (LoopState.mk .dialing Second false false,
        [.dial "/OnMarketWatch", .waited Second, .dial "/OnMarketWatch"]) ∧
    (Action.closeConn ∉ [Action.dial "/OnMarketWatch", .waited Second, .dial "/OnMarketWatch"] ∧
      closed [Action.dial "/OnMarketWatch", .waited Second, .dial "/OnMarketWatch"] = 0) :=
  have h : run .marketWatch LoopState.init
      [.enter, .connect, .dialOk, .readErr, .doneCase, .timerFired, .enter, .connect] =
      some (LoopState.mk .dialing Second false false,
        [.dial "/OnMarketWatch", .waited Second, .dial "/OnMarketWatch"]) := by decide
  ⟨h, loop_never_closes_connection .marketWatch _ _ _ h⟩

theorem count_snoc_event (tr : List Event) (e x : Event) :
    (tr ++ [e]).count x = tr.count x + (if e = x then 1 else 0) := by
  rw [List.count_append, List.count_singleton]
  simp [beq_iff_eq]

theorem readersTrack_step {k : Subscription} {tr : List Event} {s s1 : LoopState} {e : Event}
    {a : List Action} (hinv : ReadersTrack tr s) (h : step k s e = some (s1, a)) :
    ReadersTrack (tr ++ [e]) s1 := by
  obtain ⟨ph, b, c, r⟩ := s
  unfold ReadersTrack opened readersEnded at hinv ⊢
  rw [count_snoc_event, count_snoc_event]
  rcases e with _ | _ | _ | _ | _ | _ | _ | (_ | _) | _ | _ | _ <;> cases ph <;> cases c <;> cases r <;>
    simp [step] at h <;> obtain ⟨rfl, rfl⟩ := h <;> simp_all

theorem readersTrack_run {k : Subscription} :
    ∀ (tr : List Event) (s : LoopState) (a : List Action),
      run k LoopState.init tr = some (s, a) → ReadersTrack tr s :=
  run_induction (fun tr s _ => ReadersTrack tr s)
    (by simp [ReadersTrack, opened, readersEnded, LoopState.init])
    (fun _ _ _ _ _ _ _ hP hs => readersTrack_step hP hs)

/-- C13 as stated fails: after one reconnect the quote loop has opened two
connections and closed none, so two connections opened by the loop and not yet
closed exist. -/
theorem two_connections_unclosed :
    run .quote LoopState.init
        [.enter, .connect, .dialOk, .readErr, .doneCase, .timerFired, .enter, .connect, .dialOk] =
      some (LoopState.mk .streaming Second false true,
        [.dial "/OnQuote", .waited Second, .dial "/OnQuote"]) ∧
    opened [.enter, .connect, .dialOk, .readErr, .doneCase, .timerFired, .enter, .connect, .dialOk] -
      closed [Action.dial "/OnQuote", .waited Second, .dial "/OnQuote"] = 2 := by
  decide

/-- C13, amended: in every state a loop reaches, the connections it has opened
and not yet closed are all the connections it has opened (it closes none), and
at most one of them still has a running reader: all but possibly the latest
reader have returned, so the loop never reads or pings on two connections. -/
theorem at_most_one_connection_in_use (k : Subscription) (tr : List Event) (s : LoopState)
    (acts : List Action) (h : run k LoopState.init tr = some (s, acts)) :
    opened tr - closed acts = opened tr ∧
      opened tr - readersEnded tr = (if s.readerRunning then 1 else 0) ∧
      opened tr - readersEnded tr ≤ 1 := by
  have hc : closed acts = 0 := List.count_eq_zero.2 (run_never_closes tr h)
  obtain ⟨ht, -⟩ := readersTrack_run tr s acts h
  rw [hc, ht]
  refine ⟨rfl, by omega, ?_⟩
  split <;> omega

/-- Instance of C13, amended: the quote loop after one reconnect. -/
theorem at_most_one_connection_in_use_witness :
    run .quote LoopState.init
        [.enter, .connect, .dialOk, .readErr, .doneCase, .timerFired, .enter, .connect, .dialOk] =
      some (LoopState.mk .streaming Second false true,
        [.dial "/OnQuote", .waited Second, .dial "/OnQuote"]) ∧
    (opened [.enter, .connect, .dialOk, .readErr, .doneCase, .timerFired, .enter, .connect, .dialOk] -
        closed [Action.dial "/OnQuote", .waited Second, .dial "/OnQuote"] =
        opened [.enter, .connect, .dialOk, .readErr, .doneCase, .timerFired, .enter, .connect, .dialOk] ∧
      opened [.enter, .connect, .dialOk, .readErr, .doneCase, .timerFired, .enter, .connect, .dialOk] -
        readersEnded [.enter, .connect, .dialOk, .readErr, .doneCase, .timerFired, .enter, .connect, .dialOk] =
        (if (LoopState.mk .streaming Second false true).readerRunning then 1 else 0) ∧
      opened [.enter, .connect, .dialOk, .readErr, .doneCase, .timerFired, .enter, .connect, .dialOk] -
        readersEnded [.enter, .connect, .dialOk, .readErr, .doneCase, .timerFired, .enter, .connect, .dialOk] ≤ 1) :=
  have h : run .quote LoopState.init
      [.enter, .connect, .dialOk, .readErr, .doneCase, .timerFired, .enter, .connect, .dialOk] =
      some (LoopState.mk .streaming Second false true,
        [.dial "/OnQuote", .waited Second, .dial "/OnQuote"]) := by decide
  ⟨h, at_most_one_connection_in_use .quote _ _ _ h⟩

/-! ## The frame decoders -/

/-- A JSON array is decoded into the elements the slice holds: a second
`orders` member keeps the symbol that the first one stored in the element and
adds its own ticket; a shorter array cuts the length and a longer one after it
finds the element that was cut off; the empty array leaves an empty slice that
is not nil, `null` the nil slice. -/
theorem slice_decodes_into_held_elements :
    (unmarshal ProfitUpdate.fields (.value (.obj
        [("orders", .arr [.obj [("symbol", .str "A")]]),
         ("orders", .arr [.obj [("ticket", .num { whole := 1 })]])])) {}).1.Orders =
      { isNil := false, elems := [{ Symbol := "A", Ticket := 1 }] } ∧
    (unmarshal ProfitUpdate.fields (.value (.obj
        [("orders", .arr [.obj [("symbol", .str "A")], .obj [("symbol", .str "B")]]),
         ("orders", .arr [.obj []])])) {}).1.Orders =
      { isNil := false, elems := [{ Symbol := "A" }], spare := [{ Symbol := "B" }] } ∧
    (unmarshal ProfitUpdate.fields (.value (.obj
        [("orders", .arr [.obj [("symbol", .str "A")], .obj [("symbol", .str "B")]]),
         ("orders", .arr [.obj []]),
         ("orders", .arr [.obj [], .obj [], .obj []])])) {}).1.Orders =
      { isNil := false, elems := [{ Symbol := "A" }, { Symbol := "B" }, {}] } ∧
    (unmarshal ProfitUpdate.fields (.value (.obj
        [("orders", .arr [.obj [("symbol", .str "A")]]), ("orders", .arr [])])) {}).1.Orders =
      { isNil := false } ∧
    (unmarshal ProfitUpdate.fields (.value (.obj
        [("orders", .arr [.obj [("symbol", .str "A")]]), ("orders", .null)])) {}).1.Orders =
      {} := by
  decide

/-- A time that is rejected, by the rules of the toolchain: where the decoder
stops at it, the members after it are not decoded; where it goes on, they are;
the returned error is not nil either way. -/
theorem time_rejected_by_toolchain (valid : String → Bool)
    (leaves : Json → Option String → Option String) :
    unmarshal (OhlcSubscription.fields { valid := valid, stops := true, leaves := leaves })
        (.value (.obj [("time", .num { whole := 1 }), ("symbol", .str "E")])) {} =
      ({ Time := leaves (.num { whole := 1 }) none }, false) ∧
    unmarshal (OhlcSubscription.fields { valid := valid, stops := false, leaves := leaves })
        (.value (.obj [("time", .num { whole := 1 }), ("symbol", .str "E")])) {} =
      ({ Symbol := "E", Time := leaves (.num { whole := 1 }) none }, false) := by
  constructor <;> rfl

theorem findField_type_quote : findField Quote.fields "type" = none := rfl

theorem findField_data_quote : findField Quote.fields "data" = none := rfl

theorem findField_type_orderUpdate : findField OrderUpdateSummary.fields "type" = none := rfl

theorem findField_data_orderUpdate : findField OrderUpdateSummary.fields "data" = none := rfl

theorem findField_type_profitUpdate : findField ProfitUpdate.fields "type" = none := rfl

theorem findField_data_profitUpdate : findField ProfitUpdate.fields "data" = none := rfl

theorem findField_type_ohlc (rules : TimeRules) :
    findField (OhlcSubscription.fields rules) "type" = none := rfl

theorem findField_data_ohlc (rules : TimeRules) :
    findField (OhlcSubscription.fields rules) "data" = none := rfl

theorem findField_type_marketWatch : findField MarketWatch.fields "type" = none := rfl

theorem findField_data_marketWatch : findField MarketWatch.fields "data" = none := rfl

/-- A struct none of whose fields answers to the keys `type` and `data` is left
as it is, without error, by the `json.Unmarshal` of an envelope. -/
theorem unmarshal_envelopeFrame_of_no_field {S : Type} (fields : List (Field S))
    (h1 : findField fields "type" = none) (h2 : findField fields "data" = none)
    (label : String) (p : Json) (s : S) :
    unmarshal fields (envelopeFrame label p) s = (s, true) := by
  simp [unmarshal, envelopeFrame, storeStruct, unmarshalMembers, h1, h2]

/-- The `json.Unmarshal` of an envelope into `response`. -/
theorem unmarshal_envelope (label : String) (p : Json) :
    unmarshal Envelope.fields (envelopeFrame label p) {} =
      ({ Type_ := label, Data := .value p }, true) := rfl

/-- The envelope path: a decoder whose first attempt does not accept the zero
value delivers for an envelope with its label what the payload decodes to. -/
theorem decodeFrame_envelopeFrame {T : Type} (V : Variant T)
    (h1 : findField V.fields "type" = none) (h2 : findField V.fields "data" = none)
    (hz : V.accept V.zero = false) (p : Json) (ev : T)
    (hp : unmarshal V.fields (.value p) V.zero = (ev, true)) :
    decodeFrame V (envelopeFrame V.label p) = .enveloped ev := by
  unfold decodeFrame
  rw [unmarshal_envelopeFrame_of_no_field V.fields h1 h2, unmarshal_envelope]
  simp [hz, hp]

/-- A decoder whose first attempt accepts every value that decodes without
error delivers the zero value for every envelope, by its first attempt. -/
theorem decodeFrame_envelopeFrame_of_accept {T : Type} (V : Variant T)
    (h1 : findField V.fields "type" = none) (h2 : findField V.fields "data" = none)
    (hz : V.accept V.zero = true) (label : String) (p : Json) :
    decodeFrame V (envelopeFrame label p) = .direct V.zero := by
  unfold decodeFrame
  rw [unmarshal_envelopeFrame_of_no_field V.fields h1 h2]
  simp [hz]

theorem decodeFrame_of_direct {T : Type} (V : Variant T) (raw : Frame) (ev : T)
    (h : unmarshal V.fields raw V.zero = (ev, true)) (ha : V.accept ev = true) :
    decodeFrame V raw = .direct ev := by
  unfold decodeFrame
  rw [h]
  simp [ha]

/-- C14: for every JSON value `q` that decodes without error to a Quote with a
non-empty symbol, the decoder of `SocketOnQuote` calls the callback with that
Quote for the bare frame `q` (first attempt) and with the same Quote for the
frame that wraps `q` as `data` under `type` "Quote" (envelope attempt). -/
theorem quote_envelope_same_as_bare (q : Json) (ev : Quote)
    (hq : unmarshal Quote.fields (.value q) {} = (ev, true)) (hs : ev.Symbol ≠ "") :
    (decodeFrame quoteVariant (bareFrame q)).delivered = some ev ∧
      (decodeFrame quoteVariant (envelopeFrame "Quote" q)).delivered = some ev ∧
      decodeFrame quoteVariant (bareFrame q) = .direct ev ∧
      decodeFrame quoteVariant (envelopeFrame "Quote" q) = .enveloped ev := by
  have hb : decodeFrame quoteVariant (bareFrame q) = .direct ev :=
    decodeFrame_of_direct quoteVariant (bareFrame q) ev hq (by simpa [quoteVariant] using hs)
  have he : decodeFrame quoteVariant (envelopeFrame "Quote" q) = .enveloped ev :=
    decodeFrame_envelopeFrame quoteVariant findField_type_quote findField_data_quote rfl q ev hq
  exact ⟨by rw [hb]; rfl, by rw [he]; rfl, hb, he⟩

/-- Instance of C14: the payload with symbol "EURUSD" and bid 1.1000. -/
theorem quote_envelope_same_as_bare_witness :
    (decodeFrame quoteVariant (bareFrame (.obj [("symbol", .str "EURUSD"),
        ("bid", .num { whole := 1, fracDigits := 4, fracValue := 1000 })]))).delivered =
      some { Symbol := "EURUSD", Bid := { whole := 1, fracDigits := 4, fracValue := 1000 } } ∧
    (decodeFrame quoteVariant (envelopeFrame "Quote" (.obj [("symbol", .str "EURUSD"),
        ("bid", .num { whole := 1, fracDigits := 4, fracValue := 1000 })]))).delivered =
      some { Symbol := "EURUSD", Bid := { whole := 1, fracDigits := 4, fracValue := 1000 } } :=
  have h := quote_envelope_same_as_bare
    (.obj [("symbol", .str "EURUSD"),
      ("bid", .num { whole := 1, fracDigits := 4, fracValue := 1000 })])
    { Symbol := "EURUSD", Bid := { whole := 1, fracDigits := 4, fracValue := 1000 } }
    (by decide) (by decide)
  ⟨h.1, h.2.1⟩

/-- C15 on the code: in the order-update, profit-update, OHLC and market-watch
loops the first attempt accepts whatever decodes without error, and an
envelope decodes without error into the event type because no field answers
to `type` or `data`.  So for every payload `p` the enveloped frame makes the
callback be called with the zero event by the first attempt, and the envelope
attempt is never reached; the bare payloads shown deliver other events. -/
theorem enveloped_frame_delivers_zero_event (rules : TimeRules) (p : Json) :
    decodeFrame orderUpdateVariant (envelopeFrame "OrderUpdate" p) = .direct {} ∧
      decodeFrame orderProfitVariant (envelopeFrame "ProfitUpdate" p) = .direct {} ∧
      decodeFrame (ohlcVariant rules) (envelopeFrame "Ohlc" p) = .direct {} ∧
      decodeFrame marketWatchVariant (envelopeFrame "MarketWatch" p) = .direct {} ∧
      decodeFrame orderUpdateVariant (bareFrame (.obj [("balance", .num { whole := 100 })])) =
        .direct { Balance := { whole := 100 } } ∧
      decodeFrame orderProfitVariant (bareFrame (.obj [("profit", .num { whole := 7 })])) =
        .direct { Profit := { whole := 7 } } ∧
      decodeFrame (ohlcVariant rules) (bareFrame (.obj [("symbol", .str "EURUSD")])) =
        .direct { Symbol := "EURUSD" } ∧
      decodeFrame marketWatchVariant (bareFrame (.obj [("symbol", .str "EURUSD")])) =
        .direct { Symbol := "EURUSD" } :=
  ⟨decodeFrame_envelopeFrame_of_accept orderUpdateVariant findField_type_orderUpdate
      findField_data_orderUpdate rfl _ p,
    decodeFrame_envelopeFrame_of_accept orderProfitVariant findField_type_profitUpdate
      findField_data_profitUpdate rfl _ p,
    decodeFrame_envelopeFrame_of_accept (ohlcVariant rules)
      (findField_type_ohlc rules) (findField_data_ohlc rules)
      rfl _ p,
    decodeFrame_envelopeFrame_of_accept marketWatchVariant findField_type_marketWatch
      findField_data_marketWatch rfl _ p,
    by decide, by decide, rfl, by decide⟩

/-- C16: for every frame that `json.Unmarshal` decodes without error to a Quote
with a non-empty symbol, the decoder of `SocketOnQuote` takes the direct path:
the callback is called with exactly that Quote and the iteration ends there
(no envelope attempt), so the reader goroutine calls the callback with it and
goes on to the next read. -/
theorem quote_direct_path (raw : Frame) (ev : Quote)
    (h : unmarshal Quote.fields raw {} = (ev, true)) (hs : ev.Symbol ≠ "") :
    decodeFrame quoteVariant raw = .direct ev ∧
      ∀ rest, readLoop quoteVariant (.frame raw :: rest) = ev :: readLoop quoteVariant rest := by
  have hd : decodeFrame quoteVariant raw = .direct ev :=
    decodeFrame_of_direct quoteVariant raw ev h (by simpa [quoteVariant] using hs)
  refine ⟨hd, fun rest => ?_⟩
  simp [readLoop, hd]

/-- Instance of C16: the frame with symbol "EURUSD", bid 1.1000 and ask 1.1002
yields a Quote with symbol "EURUSD" by the direct path. -/
theorem quote_direct_path_witness :
    decodeFrame quoteVariant (bareFrame (.obj [("symbol", .str "EURUSD"),
        ("bid", .num { whole := 1, fracDigits := 4, fracValue := 1000 }),
        ("ask", .num { whole := 1, fracDigits := 4, fracValue := 1002 })])) =
      .direct { Symbol := "EURUSD", Bid := { whole := 1, fracDigits := 4, fracValue := 1000 },
                Ask := { whole := 1, fracDigits := 4, fracValue := 1002 } } :=
  (quote_direct_path
    (bareFrame (.obj [("symbol", .str "EURUSD"),
      ("bid", .num { whole := 1, fracDigits := 4, fracValue := 1000 }),
      ("ask", .num { whole := 1, fracDigits := 4, fracValue := 1002 })]))
    { Symbol := "EURUSD", Bid := { whole := 1, fracDigits := 4, fracValue := 1000 },
      Ask := { whole := 1, fracDigits := 4, fracValue := 1002 } }
    (by decide) (by decide)).1

/-- A frame the first attempt does not accept and whose envelope type is not
the label of the decoder is dropped. -/
theorem decodeFrame_dropped_of {T : Type} (V : Variant T) (raw : Frame)
    (ha : V.accept (unmarshal V.fields raw V.zero).1 = false)
    (hl : (unmarshal Envelope.fields raw {}).1.Type_ ≠ V.label) :
    decodeFrame V raw = .dropped := by
  unfold decodeFrame
  rcases hu : unmarshal V.fields raw V.zero with ⟨v1, ok1⟩
  rcases he : unmarshal Envelope.fields raw {} with ⟨resp, ok2⟩
  rw [hu] at ha
  rw [he] at hl
  simp only at ha hl
  simp [ha, hl]

/-- C17: on the quote loop, a frame whose top-level decoding leaves the symbol
empty and whose envelope type is not "Quote" matches neither attempt: the
callback is not called for it, the reader goroutine goes on with the next
read, and the main loop is left where it is. -/
theorem quote_unmatched_frame_dropped (raw : Frame)
    (h1 : (unmarshal Quote.fields raw {}).1.Symbol = "")
    (h2 : (unmarshal Envelope.fields raw {}).1.Type_ ≠ "Quote") :
    decodeFrame quoteVariant raw = .dropped ∧
      (∀ rest, readLoop quoteVariant (.frame raw :: rest) = readLoop quoteVariant rest) ∧
      ∀ (k : Subscription) (s : LoopState), s.readerRunning = true →
        step k s .frame = some (s, []) := by
  have ha : quoteVariant.accept (unmarshal quoteVariant.fields raw quoteVariant.zero).1 = false := by
    show ((unmarshal Quote.fields raw {}).1.Symbol != "") = false
    rw [h1]
    rfl
  have hd : decodeFrame quoteVariant raw = .dropped :=
    decodeFrame_dropped_of quoteVariant raw ha h2
  refine ⟨hd, fun rest => by simp [readLoop, hd], fun k s hr => by simp [step, hr]⟩

/-- Instance of C17: the frame whose only member is `type` with "Heartbeat". -/
theorem quote_unmatched_frame_dropped_witness :
    decodeFrame quoteVariant (.value (.obj [("type", .str "Heartbeat")])) = .dropped ∧
      (∀ rest, readLoop quoteVariant (.frame (.value (.obj [("type", .str "Heartbeat")])) :: rest) =
        readLoop quoteVariant rest) ∧
      ∀ (k : Subscription) (s : LoopState), s.readerRunning = true →
        step k s .frame = some (s, []) :=
  quote_unmatched_frame_dropped (.value (.obj [("type", .str "Heartbeat")])) (by decide)
    (by decide)

theorem readLoop_frame {T : Type} (V : Variant T) (raw : Frame) (rest : List ReadResult) :
    readLoop V (.frame raw :: rest) = eventsOf V [raw] ++ readLoop V rest := by
  cases h : decodeFrame V raw <;> simp [readLoop, eventsOf, h, Outcome.delivered]

theorem eventsOf_append {T : Type} (V : Variant T) (a b : List Frame) :
    eventsOf V (a ++ b) = eventsOf V a ++ eventsOf V b := by
  simp [eventsOf]

theorem eventsOf_cons {T : Type} (V : Variant T) (raw : Frame) (b : List Frame) :
    eventsOf V (raw :: b) = eventsOf V [raw] ++ eventsOf V b :=
  eventsOf_append V [raw] b

theorem eventsOf_singleton {T : Type} (V : Variant T) (raw : Frame) :
    eventsOf V [raw] = (decodeFrame V raw).delivered.toList := by
  cases h : (decodeFrame V raw).delivered <;> simp [eventsOf, h]

theorem readLoop_eq_eventsOf {T : Type} (V : Variant T) :
    ∀ reads : List ReadResult, readLoop V reads = eventsOf V (framesRead reads)
  | [] => rfl
  | .error :: _ => rfl
  | .frame raw :: rest => by
    rw [readLoop_frame, framesRead, eventsOf_cons V raw (framesRead rest),
      readLoop_eq_eventsOf V rest]

theorem readLoop_frames_append {T : Type} (V : Variant T) (rest : List ReadResult) :
    ∀ frames : List Frame,
      readLoop V (frames.map ReadResult.frame ++ rest) = eventsOf V frames ++ readLoop V rest
  | [] => rfl
  | raw :: more => by
    rw [List.map_cons, List.cons_append, readLoop_frame, readLoop_frames_append V rest more,
      eventsOf_cons V raw more, List.append_assoc]

/-- C18: the events a reader goroutine hands to the callback are the decode
results of the frames it read, in the order of reading: whenever a frame that
is delivered is read before another frame that is delivered, the callback
sequence holds the first event before the second, with exactly the events of
the frames read before, between and after them around. -/
theorem callbacks_in_read_order {T : Type} (V : Variant T) (reads : List ReadResult) :
    readLoop V reads = eventsOf V (framesRead reads) ∧
      ∀ (pre mid post : List Frame) (fi fj : Frame) (evi evj : T),
        framesRead reads = pre ++ fi :: (mid ++ fj :: post) →
        (decodeFrame V fi).delivered = some evi → (decodeFrame V fj).delivered = some evj →
        readLoop V reads =
          eventsOf V pre ++ evi :: (eventsOf V mid ++ evj :: eventsOf V post) := by
  refine ⟨readLoop_eq_eventsOf V reads, ?_⟩
  intro pre mid post fi fj evi evj hsplit hi hj
  rw [readLoop_eq_eventsOf V reads, hsplit, eventsOf_append, eventsOf_cons V fi,
    eventsOf_append, eventsOf_cons V fj, eventsOf_singleton, eventsOf_singleton, hi, hj]
  simp

/-- Instance of C18: the quote reader reads a quote for "EURUSD", a heartbeat,
an enveloped quote for "GBPUSD", and then gets a read error. -/
theorem callbacks_in_read_order_witness :
    readLoop quoteVariant
        [.frame (bareFrame (.obj [("symbol", .str "EURUSD")])),
         .frame (.value (.obj [("type", .str "Heartbeat")])),
         .frame (envelopeFrame "Quote" (.obj [("symbol", .str "GBPUSD")])),
         .error,
         .frame (bareFrame (.obj [("symbol", .str "USDJPY")]))] =
      eventsOf quoteVariant [] ++ { Symbol := "EURUSD" } ::
        (eventsOf quoteVariant [.value (.obj [("type", .str "Heartbeat")])] ++
          { Symbol := "GBPUSD" } :: eventsOf quoteVariant []) :=
  (callbacks_in_read_order quoteVariant
    [.frame (bareFrame (.obj [("symbol", .str "EURUSD")])),
     .frame (.value (.obj [("type", .str "Heartbeat")])),
     .frame (envelopeFrame "Quote" (.obj [("symbol", .str "GBPUSD")])),
     .error,
     .frame (bareFrame (.obj [("symbol", .str "USDJPY")]))]).2
    [] [.value (.obj [("type", .str "Heartbeat")])] []
    (bareFrame (.obj [("symbol", .str "EURUSD")]))
    (envelopeFrame "Quote" (.obj [("symbol", .str "GBPUSD")]))
    { Symbol := "EURUSD" } { Symbol := "GBPUSD" } rfl (by decide) (by decide)

theorem readerIteration_outcome {T : Type} (V : Variant T) (cb : T → T) (vars : ReaderVars T)
    (raw : Frame) : (readerIteration V cb vars raw).2 = decodeFrame V raw := by
  unfold readerIteration decodeFrame
  dsimp only
  rcases unmarshal V.fields raw V.zero with ⟨v1, ok1⟩
  rcases he : unmarshal Envelope.fields raw {} with ⟨resp, ok2⟩
  rcases hd : unmarshal V.fields resp.Data v1 with ⟨v2, ok3⟩
  simp only [he, hd]
  split_ifs <;> rfl

theorem readerRun_eq_map {T : Type} (V : Variant T) (cb : Nat → T → T) :
    ∀ (reads : List ReadResult) (n : Nat) (vars : ReaderVars T),
      readerRun V cb n vars reads = (framesRead reads).map (decodeFrame V)
  | [], _, _ => rfl
  | .error :: _, _, _ => rfl
  | .frame raw :: rest, n, vars => by
    have h := readerIteration_outcome V (cb n) vars raw
    rcases hi : readerIteration V (cb n) vars raw with ⟨vars1, out⟩
    rw [hi] at h
    simp only [readerRun, hi, framesRead, List.map_cons]
    rw [readerRun_eq_map V cb rest (n + 1) vars1, ← h]

theorem framesRead_frames_append (rest : List ReadResult) :
    ∀ frames : List Frame,
      framesRead (frames.map ReadResult.frame ++ rest) = frames ++ framesRead rest
  | [] => rfl
  | raw :: more => by
    rw [List.map_cons, List.cons_append, framesRead, framesRead_frames_append rest more,
      List.cons_append]

theorem getElem?_length_append_cons {α : Type} (l r : List α) (x : α) :
    (l ++ x :: r)[l.length]? = some x := by
  induction l with
  | nil => simp
  | cons y ys ih => simpa using ih

/-- The variables of a reader iteration do hold data when the iteration ends:
after the quote frame for "EURUSD" the event variable holds that quote, and
after an envelope the envelope variable holds its type. -/
theorem readerIteration_leaves_data :
    (readerIteration quoteVariant id { event := {}, response := {} }
        (bareFrame (.obj [("symbol", .str "EURUSD")]))).1.event = { Symbol := "EURUSD" } ∧
      (readerIteration quoteVariant id { event := {}, response := {} }
        (envelopeFrame "Heartbeat" .null)).1.response.Type_ = "Heartbeat" := by
  decide

/-- C19: the decoder of every loop keeps nothing from one frame to the next.
What an iteration of the reader goroutine does with a frame does not depend on
what the variables of the loop body hold from earlier iterations, nor on what
the callback has written through the pointer it was given: it is what the
body does from freshly declared variables.  So when the same raw frame is read
at two positions of a stream, whatever frames are read before and in between,
the outcome is the same both times: the callback is called with one and the
same event, or the frame is dropped both times. -/
theorem decoder_stateless {T : Type} (V : Variant T) (cb : Nat → T → T) (n : Nat)
    (vars : ReaderVars T) (pre mid : List Frame) (raw : Frame) (rest : List ReadResult) :
    (∀ (f : T → T) (other : ReaderVars T),
      (readerIteration V f other raw).2 = (readerIteration V (cb n) vars raw).2) ∧
    (readerIteration V (cb n) vars raw).2 = decodeFrame V raw ∧
    (readerRun V cb n vars (pre.map ReadResult.frame ++
        (.frame raw :: (mid.map ReadResult.frame ++ (.frame raw :: rest)))))[pre.length]? =
      some (decodeFrame V raw) ∧
    (readerRun V cb n vars (pre.map ReadResult.frame ++
        (.frame raw :: (mid.map ReadResult.frame ++ (.frame raw :: rest)))))[pre.length + 1 +
          mid.length]? =
      some (decodeFrame V raw) ∧
    readLoop V (pre.map ReadResult.frame ++
        (.frame raw :: (mid.map ReadResult.frame ++ (.frame raw :: rest)))) =
      eventsOf V pre ++ ((decodeFrame V raw).delivered.toList ++
        (eventsOf V mid ++ ((decodeFrame V raw).delivered.toList ++ readLoop V rest))) := by
  have hf : (framesRead (pre.map ReadResult.frame ++
      (.frame raw :: (mid.map ReadResult.frame ++ (.frame raw :: rest))))).map (decodeFrame V) =
      (pre.map (decodeFrame V) ++ decodeFrame V raw :: mid.map (decodeFrame V)) ++
        decodeFrame V raw :: (framesRead rest).map (decodeFrame V) := by
    rw [framesRead_frames_append, framesRead, framesRead_frames_append, framesRead]
    simp
  refine ⟨fun f other => ?_, readerIteration_outcome V _ vars raw, ?_, ?_, ?_⟩
  · rw [readerIteration_outcome, readerIteration_outcome]
  · rw [readerRun_eq_map, hf, List.append_assoc, List.cons_append]
    have hl : (pre.map (decodeFrame V)).length = pre.length := by simp
    rw [← hl]
    exact getElem?_length_append_cons _ _ _
  · rw [readerRun_eq_map, hf]
    have hl : (pre.map (decodeFrame V) ++ decodeFrame V raw :: mid.map (decodeFrame V)).length =
        pre.length + 1 + mid.length := by
      simp
      omega
    rw [← hl]
    exact getElem?_length_append_cons _ _ _
  · rw [readLoop_frames_append, readLoop_frame, readLoop_frames_append, readLoop_frame,
      eventsOf_singleton]

/-! ## The connection URI -/

theorem replaceFirst_of_absent (old new : List Char) :
    ∀ s : List Char, ¬ old <:+: s → replaceFirst old new s = s
  | [], _ => rfl
  | c :: cs, h => by
    have hp : old.isPrefixOf (c :: cs) = false := by
      cases hb : old.isPrefixOf (c :: cs) with
      | false => rfl
      | true => exact absurd (List.isPrefixOf_iff_prefix.1 hb).isInfix h
    have ht : ¬ old <:+: cs := fun hi => h (hi.trans (List.suffix_cons c cs).isInfix)
    simp only [replaceFirst, hp, Bool.false_eq_true, if_false]
    rw [replaceFirst_of_absent old new cs ht]

theorem webSocketURL_http (h e t : String) (hn : ¬ "https://".data <:+: h.data) :
    Client.webSocketURL { BaseURL := "http://" ++ h, Token := t } e =
      { Scheme := "ws", Host := h, Path := e, RawQuery := "id=" ++ t } := by
  have h1 : stringsReplaceOnce ("http://" ++ h) "http://" "ws://" = "ws://" ++ h := by
    apply String.ext
    simp [stringsReplaceOnce, replaceFirst, List.isPrefixOf]
  have h2 : stringsReplaceOnce ("ws://" ++ h) "https://" "wss://" = "ws://" ++ h := by
    apply String.ext
    simp [stringsReplaceOnce, replaceFirst, List.isPrefixOf]
    exact replaceFirst_of_absent _ _ _ hn
  have h3 : stringsHasPrefix ("http://" ++ h) "https://" = false := by
    simp [stringsHasPrefix, List.isPrefixOf]
  have h4 : stringsTrimPrefix ("ws://" ++ h) "ws://" = h := by
    simp [stringsTrimPrefix, stringsHasPrefix, List.isPrefixOf]
  simp [Client.webSocketURL, h1, h2, h3, h4]

theorem webSocketURL_https (h e t : String) (hn : ¬ "http://".data <:+: h.data) :
    Client.webSocketURL { BaseURL := "https://" ++ h, Token := t } e =
      { Scheme := "wss", Host := h, Path := e, RawQuery := "id=" ++ t } := by
  have h1 : stringsReplaceOnce ("https://" ++ h) "http://" "ws://" = "https://" ++ h := by
    apply String.ext
    simp [stringsReplaceOnce, replaceFirst, List.isPrefixOf]
    exact replaceFirst_of_absent _ _ _ hn
  have h2 : stringsReplaceOnce ("https://" ++ h) "https://" "wss://" = "wss://" ++ h := by
    apply String.ext
    simp [stringsReplaceOnce, replaceFirst, List.isPrefixOf]
  have h3 : stringsHasPrefix ("https://" ++ h) "https://" = true := by
    simp [stringsHasPrefix, List.isPrefixOf]
  have h4 : stringsTrimPrefix ("wss://" ++ h) "wss://" = h := by
    simp [stringsTrimPrefix, stringsHasPrefix, List.isPrefixOf]
  simp [Client.webSocketURL, h1, h2, h3, h4]

theorem not_infix_of_no_slash (old h : List Char) (ho : '/' ∈ old) (hh : '/' ∉ h) :
    ¬ old <:+: h :=
  fun hi => hh (hi.subset ho)

/-- C20: for every endpoint path `e`, token `t` and string `h` that does not
itself hold the text `https://`, a client with BaseURL `http://` followed by
`h` and token `t` gets the URI with scheme `ws`, host `h`, path `e` and raw
query `id=` followed by `t`; for every `h` that does not itself hold the text
`http://`, BaseURL `https://` followed by `h` gives scheme `wss` with the same
host, path and raw query.  Every host string qualifies, since a host holds no
`/`. -/
theorem webSocketURL_scheme_host_path_query (h e t : String) :
    (¬ "https://".data <:+: h.data →
      Client.webSocketURL { BaseURL := "http://" ++ h, Token := t } e =
        { Scheme := "ws", Host := h, Path := e, RawQuery := "id=" ++ t }) ∧
    (¬ "http://".data <:+: h.data →
      Client.webSocketURL { BaseURL := "https://" ++ h, Token := t } e =
        { Scheme := "wss", Host := h, Path := e, RawQuery := "id=" ++ t }) ∧
    ('/' ∉ h.data →
      Client.webSocketURL { BaseURL := "http://" ++ h, Token := t } e =
          { Scheme := "ws", Host := h, Path := e, RawQuery := "id=" ++ t } ∧
        Client.webSocketURL { BaseURL := "https://" ++ h, Token := t } e =
          { Scheme := "wss", Host := h, Path := e, RawQuery := "id=" ++ t }) :=
  ⟨webSocketURL_http h e t, webSocketURL_https h e t, fun hs =>
    ⟨webSocketURL_http h e t (not_infix_of_no_slash _ _ (by decide) hs),
      webSocketURL_https h e t (not_infix_of_no_slash _ _ (by decide) hs)⟩⟩

/-- Instance of C20: host `mt5.example.com:8080`, endpoint `/OnQuote`, token
`abc123`. -/
theorem webSocketURL_scheme_host_path_query_witness :
    '/' ∉ "mt5.example.com:8080".data ∧
      Client.webSocketURL { BaseURL := "http://" ++ "mt5.example.com:8080", Token := "abc123" }
          "/OnQuote" =
        { Scheme := "ws", Host := "mt5.example.com:8080", Path := "/OnQuote",
          RawQuery := "id=" ++ "abc123" } ∧
      Client.webSocketURL { BaseURL := "https://" ++ "mt5.example.com:8080", Token := "abc123" }
          "/OnQuote" =
        { Scheme := "wss", Host := "mt5.example.com:8080", Path := "/OnQuote",
          RawQuery := "id=" ++ "abc123" } :=
  have hs : '/' ∉ "mt5.example.com:8080".data := by decide
  ⟨hs, (webSocketURL_scheme_host_path_query "mt5.example.com:8080" "/OnQuote" "abc123").2.2 hs⟩

/-! ## The session token and one-shot requests -/

/-- C21 as stated fails: `SetToken` changes the token of a client although it
is no authentication call and no `Disconnect`, and no request succeeds. -/
theorem setToken_changes_token :
    (Client.call { BaseURL := "http://h", Token := "a" } .sendFailed (.SetToken "b")).1.Token =
        "b" ∧
      (Client.call { BaseURL := "http://h", Token := "a" } .sendFailed (.SetToken "b")).2 = none ∧
      Call.isAuthentication (.SetToken "b") = false ∧
      (Client.mk "http://h" "a").Token ≠ "b" :=
  ⟨rfl, rfl, rfl, by decide⟩

theorem authenticate_token (c : Client) (endpoint : String) (params : Values) (ex : Exchange) :
    (∀ body, (c.authenticate endpoint params ex).2 = .ok body →
        (c.authenticate endpoint params ex).1.Token = body) ∧
      (∀ err, (c.authenticate endpoint params ex).2 = .error err →
        (c.authenticate endpoint params ex).1 = c) := by
  unfold Client.authenticate
  cases h : (c.doRequest "GET" endpoint params ex).2 with
  | error e => simp
  | ok b => simp [Client.SetToken]

theorem disconnect_token (c : Client) (ex : Exchange) :
    (∀ body, (c.Disconnect ex).2 = .ok body → (c.Disconnect ex).1.Token = "") ∧
      (∀ err, (c.Disconnect ex).2 = .error err → (c.Disconnect ex).1 = c) := by
  unfold Client.Disconnect
  cases h : (c.doRequest "GET" "/Disconnect" { entries := [] } ex).2 with
  | error e => simp
  | ok b => simp

/-- C21, amended: the token of a client changes only on a successful
authentication call (`Connect`, `ConnectEx`, `ConnectProxy` set it to the
response body and return that same string), on a successful `Disconnect`
(which clears it), or on a `SetToken` call; every call that returns an error
leaves the token unchanged. -/
theorem token_changes_only_on_success_or_setToken (c : Client) (ex : Exchange) (call : Call) :
    (call.isAuthentication = true → ∀ body, (c.call ex call).2 = some (.ok body) →
        (c.call ex call).1.Token = body) ∧
      (call = .Disconnect → ∀ body, (c.call ex call).2 = some (.ok body) →
        (c.call ex call).1.Token = "") ∧
      (∀ err, (c.call ex call).2 = some (.error err) → (c.call ex call).1.Token = c.Token) ∧
      ((c.call ex call).1.Token ≠ c.Token →
        (call.isAuthentication = true ∧ ∃ body, (c.call ex call).2 = some (.ok body)) ∨
        (call = .Disconnect ∧ ∃ body, (c.call ex call).2 = some (.ok body)) ∨
        ∃ token, call = .SetToken token) := by
  have herr : ∀ (r : Client × Except RequestError String),
      (∀ err, r.2 = .error err → r.1 = c) → r.1.Token ≠ c.Token → ∃ body, r.2 = .ok body := by
    intro r hr hne
    cases h : r.2 with
    | error e => exact absurd (by rw [hr e h]) hne
    | ok b => exact ⟨b, rfl⟩
  cases call with
  | Connect params =>
    have h := authenticate_token c "/Connect" params ex
    refine ⟨fun _ body hb => h.1 body (by simpa [Client.call, Client.Connect] using hb),
      (fun hc => by cases hc), fun err he => ?_, fun hne => Or.inl ⟨rfl, ?_⟩⟩
    · have := h.2 err (by simpa [Client.call, Client.Connect] using he)
      simp [Client.call, Client.Connect, this]
    · obtain ⟨b, hb⟩ := herr _ h.2 (by simpa [Client.call, Client.Connect] using hne)
      exact ⟨b, by simp [Client.call, Client.Connect, hb]⟩
  | ConnectEx params =>
    have h := authenticate_token c "/ConnectEx" params ex
    refine ⟨fun _ body hb => h.1 body (by simpa [Client.call, Client.ConnectEx] using hb),
      (fun hc => by cases hc), fun err he => ?_, fun hne => Or.inl ⟨rfl, ?_⟩⟩
    · have := h.2 err (by simpa [Client.call, Client.ConnectEx] using he)
      simp [Client.call, Client.ConnectEx, this]
    · obtain ⟨b, hb⟩ := herr _ h.2 (by simpa [Client.call, Client.ConnectEx] using hne)
      exact ⟨b, by simp [Client.call, Client.ConnectEx, hb]⟩
  | ConnectProxy params =>
    have h := authenticate_token c "/ConnectProxy" params ex
    refine ⟨fun _ body hb => h.1 body (by simpa [Client.call, Client.ConnectProxy] using hb),
      (fun hc => by cases hc), fun err he => ?_, fun hne => Or.inl ⟨rfl, ?_⟩⟩
    · have := h.2 err (by simpa [Client.call, Client.ConnectProxy] using he)
      simp [Client.call, Client.ConnectProxy, this]
    · obtain ⟨b, hb⟩ := herr _ h.2 (by simpa [Client.call, Client.ConnectProxy] using hne)
      exact ⟨b, by simp [Client.call, Client.ConnectProxy, hb]⟩
  | Disconnect =>
    have h := disconnect_token c ex
    refine ⟨(fun hc => by cases hc), fun _ body hb => h.1 body (by simpa [Client.call] using hb),
      fun err he => ?_, fun hne => Or.inr (Or.inl ⟨rfl, ?_⟩)⟩
    · have := h.2 err (by simpa [Client.call] using he)
      simp [Client.call, this]
    · obtain ⟨b, hb⟩ := herr _ h.2 (by simpa [Client.call] using hne)
      exact ⟨b, by simp [Client.call, hb]⟩
  | SetToken token =>
    exact ⟨(fun hc => by cases hc), (fun hc => by cases hc), (fun err he => by simp [Client.call] at he),
      fun _ => Or.inr (Or.inr ⟨token, rfl⟩)⟩
  | other endpoint params =>
    exact ⟨(fun hc => by cases hc), (fun hc => by cases hc), fun _ _ => rfl,
      fun hne => absurd rfl hne⟩

/-- Instance of C21, amended: a `Connect` that completes with status 200 and
body `tok1` on a client whose token was `old`. -/
theorem token_changes_only_on_success_or_setToken_witness :
    (Client.call { BaseURL := "http://h", Token := "old" }
        (.completed 200 { text := "tok1", parsed := .malformed })
        (.Connect { entries := [("user", ["7"])] })).2 = some (.ok "tok1") ∧
      (Client.call { BaseURL := "http://h", Token := "old" }
        (.completed 200 { text := "tok1", parsed := .malformed })
        (.Connect { entries := [("user", ["7"])] })).1.Token = "tok1" :=
  have h : (Client.call { BaseURL := "http://h", Token := "old" }
      (.completed 200 { text := "tok1", parsed := .malformed })
      (.Connect { entries := [("user", ["7"])] })).2 = some (.ok "tok1") := rfl
  ⟨h, (token_changes_only_on_success_or_setToken { BaseURL := "http://h", Token := "old" }
    (.completed 200 { text := "tok1", parsed := .malformed })
    (.Connect { entries := [("user", ["7"])] })).1 rfl "tok1" h⟩

/-- C22 as stated fails: for tick history, tick value and mail `websocket.go`
has a dial helper but no resilient subscription loop. -/
theorem three_kinds_without_loop :
    SubscriptionKind.socketLoop .tickHistory = none ∧
      SubscriptionKind.socketLoop .tickValue = none ∧
      SubscriptionKind.socketLoop .mail = none ∧
      SubscriptionKind.dialEndpoint .tickHistory = "/OnTickHistory" ∧
      SubscriptionKind.dialEndpoint .tickValue = "/OnTickValue" ∧
      SubscriptionKind.dialEndpoint .mail = "/OnMail" := by
  decide

theorem step_atEndpoint (k : Subscription) (s : LoopState) (e : Event) :
    step k s e = (step .quote s e).map (atEndpoint k.endpoint) := by
  obtain ⟨ph, b, c, r⟩ := s
  rcases e with _ | _ | _ | _ | _ | _ | _ | (_ | _) | _ | _ | _ <;> cases ph <;> cases c <;> cases r <;>
    simp [step, atEndpoint, Action.atEndpoint]

theorem atEndpoint_append (ep : String) (s1 s2 : LoopState) (a1 a2 : List Action) :
    atEndpoint ep (s2, a1 ++ a2) = (s2, (atEndpoint ep (s1, a1)).2 ++ (atEndpoint ep (s2, a2)).2) := by
  simp [atEndpoint]

theorem run_atEndpoint (k : Subscription) :
    ∀ (tr : List Event) (s : LoopState),
      run k s tr = (run .quote s tr).map (atEndpoint k.endpoint)
  | [], s => by simp [run, atEndpoint]
  | e :: es, s => by
    simp only [run]
    rw [step_atEndpoint k s e]
    cases step .quote s e with
    | none => rfl
    | some p =>
      obtain ⟨s1, a1⟩ := p
      simp only [Option.map_some', atEndpoint]
      rw [run_atEndpoint k es s1]
      cases run .quote s1 es with
      | none => rfl
      | some q =>
        obtain ⟨s2, a2⟩ := q
        simp [atEndpoint]

/-- C22, amended: of the eight subscription kinds exactly five (quotes, order
updates, profit updates, OHLC, market watch) have a resilient loop, each on
the endpoint of the dial helper of its kind.  These loops run one and the same
state machine: a step or a run of any of them is the step or run of the quote
loop with the endpoint of the dials replaced.  Their decoders differ in the
event type with its fields, in the envelope label, and in the quote decoder
alone testing the symbol in the first attempt. -/
theorem five_loops_one_state_machine :
    (∀ kind : SubscriptionKind, kind.socketLoop.isSome = true ↔
      kind = .quotes ∨ kind = .orderUpdates ∨ kind = .profitUpdates ∨ kind = .ohlc ∨
        kind = .marketWatch) ∧
    (∀ (kind : SubscriptionKind) (k : Subscription), kind.socketLoop = some k →
      k.endpoint = kind.dialEndpoint) ∧
    (∀ (k : Subscription) (s : LoopState) (e : Event),
      step k s e = (step .quote s e).map (atEndpoint k.endpoint)) ∧
    (∀ (k : Subscription) (s : LoopState) (tr : List Event),
      run k s tr = (run .quote s tr).map (atEndpoint k.endpoint)) ∧
    (∀ q : Quote, quoteVariant.accept q = (q.Symbol != "")) ∧
    (∀ v, orderUpdateVariant.accept v = true) ∧ (∀ v, orderProfitVariant.accept v = true) ∧
    (∀ rules v, (ohlcVariant rules).accept v = true) ∧
    (∀ v, marketWatchVariant.accept v = true) := by
  refine ⟨?_, ?_, step_atEndpoint, fun k s tr => run_atEndpoint k tr s, fun _ => rfl,
    fun _ => rfl, fun _ => rfl, fun _ _ => rfl, fun _ => rfl⟩
  · intro kind
    cases kind <;> simp [SubscriptionKind.socketLoop]
  · intro kind k h
    cases kind <;> simp [SubscriptionKind.socketLoop] at h <;> subst h <;> rfl

/-- C23: for a completed exchange `doRequest` returns a body without error
exactly when the status is 200, and then it is the raw body; with status 201
it returns the API error with the code and the message of the body when the
body decodes as an `ExceptionResult`, and the API error with the raw body
otherwise; with any other status it returns the HTTP error with the status and
the raw body. -/
theorem doRequest_classifies_status (c : Client) (method endpoint : String) (params : Values)
    (status : Int) (body : Body) :
    ((∃ b, (c.doRequest method endpoint params (.completed status body)).2 = .ok b) ↔
        status = 200) ∧
      (status = 200 →
        (c.doRequest method endpoint params (.completed status body)).2 = .ok body.text) ∧
      (status = 201 → ∀ apiErr, unmarshal ExceptionResult.fields body.parsed {} = (apiErr, true) →
        (c.doRequest method endpoint params (.completed status body)).2 =
          .error (.apiError apiErr.Code apiErr.Message)) ∧
      (status = 201 → ∀ apiErr, unmarshal ExceptionResult.fields body.parsed {} = (apiErr, false) →
        (c.doRequest method endpoint params (.completed status body)).2 =
          .error (.apiErrorBody body.text)) ∧
      (status ≠ 200 → status ≠ 201 →
        (c.doRequest method endpoint params (.completed status body)).2 =
          .error (.httpError status body.text)) := by
  have h200 : status = 200 →
      (c.doRequest method endpoint params (.completed status body)).2 = .ok body.text := by
    intro h
    subst h
    simp [Client.doRequest, classifyResponse]
  have hother : status ≠ 200 → status ≠ 201 →
      (c.doRequest method endpoint params (.completed status body)).2 =
        .error (.httpError status body.text) := by
    intro h1 h2
    simp [Client.doRequest, classifyResponse, h1, h2]
  have h201a : status = 201 → ∀ apiErr,
      unmarshal ExceptionResult.fields body.parsed {} = (apiErr, true) →
      (c.doRequest method endpoint params (.completed status body)).2 =
        .error (.apiError apiErr.Code apiErr.Message) := by
    intro h a ha
    subst h
    simp [Client.doRequest, classifyResponse, ha]
  have h201b : status = 201 → ∀ apiErr,
      unmarshal ExceptionResult.fields body.parsed {} = (apiErr, false) →
      (c.doRequest method endpoint params (.completed status body)).2 =
        .error (.apiErrorBody body.text) := by
    intro h a ha
    subst h
    simp [Client.doRequest, classifyResponse, ha]
  refine ⟨⟨?_, fun h => ⟨_, h200 h⟩⟩, h200, h201a, h201b, hother⟩
  rintro ⟨b, hb⟩
  by_contra hne
  by_cases h1 : status = 201
  · rcases hu : unmarshal ExceptionResult.fields body.parsed {} with ⟨a, ok⟩
    cases ok
    · rw [h201b h1 a hu] at hb
      cases hb
    · rw [h201a h1 a hu] at hb
      cases hb
  · rw [hother hne h1] at hb
    cases hb

/-- Instance of C23: status 201 with a body that holds code `E42` and message
`no such login`. -/
theorem doRequest_classifies_status_witness :
    (Client.doRequest { BaseURL := "http://h", Token := "t" } "GET" "/Symbols" { entries := [] }
        (.completed 201 { text := "body", parsed := .value (.obj [("code", .str "E42"),
          ("message", .str "no such login")]) })).2 =
      .error (.apiError "E42" "no such login") :=
  (doRequest_classifies_status { BaseURL := "http://h", Token := "t" } "GET" "/Symbols"
    { entries := [] } 201 { text := "body", parsed := .value (.obj [("code", .str "E42"),
      ("message", .str "no such login")]) }).2.2.1 rfl
    { Message := "no such login", Code := "E42" } (by decide)

theorem lookup_setEntry (key value : String) :
    ∀ entries : List (String × List String), (setEntry key value entries).lookup key = some [value]
  | [] => by simp [setEntry, List.lookup]
  | (k, vs) :: rest => by
    by_cases h : k = key
    · simp [setEntry, h, List.lookup]
    · have hb : (key == k) = false := by simpa using fun hk : key = k => h hk.symm
      simp [setEntry, h, List.lookup, hb, lookup_setEntry key value rest]

theorem get_set (v : Values) (key value : String) : (v.set key value).get key = value := by
  simp [Values.get, Values.set, lookup_setEntry]

/-- C24 as stated fails: with token `abc` and a supplied id that is `abc`
already, a non-empty id was supplied and yet the id parameter equals the token
after `doRequest`; the parameters are unchanged. -/
theorem supplied_id_can_equal_token :
    (Client.doRequest { BaseURL := "http://h", Token := "abc" } "GET" "/Connect"
        { entries := [("id", ["abc"])] } .sendFailed).1 = { entries := [("id", ["abc"])] } ∧
      (Client.doRequest { BaseURL := "http://h", Token := "abc" } "GET" "/Connect"
        { entries := [("id", ["abc"])] } .sendFailed).1.get "id" = "abc" ∧
      (Values.mk [("id", ["abc"])]).get "id" ≠ "" := by
  decide

/-- C24, amended: when the token is non-empty and the parameters hold no
non-empty id, `doRequest` sets the id parameter to the token; otherwise it
leaves the parameters unchanged.  So afterwards the id parameter equals the
token exactly when that condition holds or the supplied id was the token
already. -/
theorem doRequest_adds_token (c : Client) (method endpoint : String) (params : Values)
    (ex : Exchange) :
    (c.Token ≠ "" ∧ params.get "id" = "" →
        (c.doRequest method endpoint params ex).1 = params.set "id" c.Token ∧
        (c.doRequest method endpoint params ex).1.get "id" = c.Token) ∧
      (¬ (c.Token ≠ "" ∧ params.get "id" = "") →
        (c.doRequest method endpoint params ex).1 = params) ∧
      ((c.doRequest method endpoint params ex).1.get "id" = c.Token ↔
        (c.Token ≠ "" ∧ params.get "id" = "") ∨ params.get "id" = c.Token) := by
  have h1 : c.Token ≠ "" ∧ params.get "id" = "" →
      (c.doRequest method endpoint params ex).1 = params.set "id" c.Token := by
    intro h
    simp only [Client.doRequest, addToken, if_pos h]
  have h2 : ¬ (c.Token ≠ "" ∧ params.get "id" = "") →
      (c.doRequest method endpoint params ex).1 = params := by
    intro h
    simp only [Client.doRequest, addToken, if_neg h]
  refine ⟨fun h => ⟨h1 h, by rw [h1 h, get_set]⟩, h2, ?_⟩
  by_cases hb : c.Token ≠ "" ∧ params.get "id" = ""
  · rw [h1 hb, get_set]
    exact ⟨fun _ => Or.inl hb, fun _ => rfl⟩
  · rw [h2 hb]
    exact ⟨fun h => Or.inr h, fun h => h.resolve_left hb⟩

/-- Instance of C24, amended: token `abc` and parameters without an id. -/
theorem doRequest_adds_token_witness :
    (Client.doRequest { BaseURL := "http://h", Token := "abc" } "GET" "/Symbols"
        { entries := [("sort", ["OpenTime"])] } .sendFailed).1 =
      (Values.mk [("sort", ["OpenTime"])]).set "id" "abc" ∧
    (Client.doRequest { BaseURL := "http://h", Token := "abc" } "GET" "/Symbols"
        { entries := [("sort", ["OpenTime"])] } .sendFailed).1.get "id" = "abc" :=
  (doRequest_adds_token { BaseURL := "http://h", Token := "abc" } "GET" "/Symbols"
    { entries := [("sort", ["OpenTime"])] } .sendFailed).1 (by decide)

/-! ## `Close`, the reader goroutine and `ReadQuote` -/

/-- C25 as stated fails: the first `Close` of an open connection closes the
socket and returns no error; the second call finds `conn` still set, closes
the socket again and returns its error. -/
theorem second_close_returns_error :
    (WebSocketConnection.mk (some { closed := false }) "/OnQuote").Close =
        ({ conn := some { closed := true }, endpoint := "/OnQuote" }, none) ∧
      (WebSocketConnection.mk (some { closed := false }) "/OnQuote").Close.1.Close =
        ({ conn := some { closed := true }, endpoint := "/OnQuote" },
          some .useOfClosedConnection) := by
  decide

/-- C25, amended: on a connection whose socket is absent `Close` returns no
error and changes nothing; otherwise it hands every call on to the socket and
returns what the socket returns.  A second call has no further effect on the
connection, and on a socket that was open it returns the error of closing a
closed socket. -/
theorem close_forwards_to_socket (ws : WebSocketConnection) :
    (ws.conn = none → ws.Close = (ws, none)) ∧
      (∀ s, ws.conn = some s → ws.Close = ({ ws with conn := some s.Close.1 }, s.Close.2)) ∧
      ws.Close.1.Close.1 = ws.Close.1 ∧
      (ws.conn = some { closed := false } →
        ws.Close.2 = none ∧ ws.Close.1.Close.2 = some .useOfClosedConnection) := by
  obtain ⟨conn, ep⟩ := ws
  cases conn with
  | none => simp [WebSocketConnection.Close]
  | some s =>
    obtain ⟨cl⟩ := s
    cases cl <;> simp [WebSocketConnection.Close, Socket.Close]

/-- Instance of C25, amended: a connection whose socket is absent. -/
theorem close_forwards_to_socket_witness :
    (WebSocketConnection.mk none "/OnQuote").Close = (WebSocketConnection.mk none "/OnQuote", none) :=
  (close_forwards_to_socket (WebSocketConnection.mk none "/OnQuote")).1 rfl

theorem readerDone_frame {T : Type} (V : Variant T) (raw : Frame) (rest : List ReadResult) :
    readerDone V (.frame raw :: rest) = readerDone V rest := by
  cases h : decodeFrame V raw <;> simp [readerDone, h]

theorem readerDone_frames_append {T : Type} (V : Variant T) (rest : List ReadResult) :
    ∀ frames : List Frame, readerDone V (frames.map ReadResult.frame ++ rest) = readerDone V rest
  | [] => rfl
  | raw :: more => by
    rw [List.map_cons, List.cons_append, readerDone_frame, readerDone_frames_append V rest more]

theorem readerDone_iff {T : Type} (V : Variant T) :
    ∀ reads : List ReadResult, readerDone V reads = true ↔ ReadResult.error ∈ reads
  | [] => by simp [readerDone]
  | .error :: rest => by simp [readerDone]
  | .frame raw :: rest => by
    rw [readerDone_frame, readerDone_iff V rest]
    simp

/-- C26: the reader goroutine of every loop returns, and closes `done`,
exactly when one of its reads has failed.  Frames, whatever they hold (not
JSON at all, JSON of another kind, a payload that does not decode), never end
it: after any run of frames the goroutine is where it would be without them,
the callback has received the events of those that decode, and reading goes
on.  In the main loop a frame leaves the state as it is and only a read error
marks the reader as returned. -/
theorem reader_ends_only_on_read_error {T : Type} (V : Variant T) :
    (∀ reads : List ReadResult, readerDone V reads = true ↔ ReadResult.error ∈ reads) ∧
      (∀ (frames : List Frame) (rest : List ReadResult),
        readerDone V (frames.map ReadResult.frame ++ rest) = readerDone V rest ∧
        readLoop V (frames.map ReadResult.frame ++ rest) = eventsOf V frames ++ readLoop V rest) ∧
      (∀ frames : List Frame, readerDone V (frames.map ReadResult.frame) = false) ∧
      (∀ (k : Subscription) (s : LoopState), s.readerRunning = true →
        step k s .frame = some (s, []) ∧
        step k s .readErr = some ({ s with readerRunning := false }, [])) := by
  refine ⟨readerDone_iff V, fun frames rest =>
    ⟨readerDone_frames_append V rest frames, readLoop_frames_append V rest frames⟩, ?_, ?_⟩
  · intro frames
    have := readerDone_frames_append V [] frames
    simpa [readerDone] using this
  · intro k s hr
    simp [step, hr]

/-- Instance of C26: the quote reader reads bytes that are not JSON, a JSON
string and a heartbeat, and has not returned; the read error that follows
makes it return. -/
theorem reader_ends_only_on_read_error_witness :
    readerDone quoteVariant
        [.frame .malformed, .frame (.value (.str "x")),
         .frame (.value (.obj [("type", .str "Heartbeat")]))] = false ∧
      (readerDone quoteVariant
        [.frame .malformed, .frame (.value (.str "x")),
         .frame (.value (.obj [("type", .str "Heartbeat")])), .error] = true ↔
        ReadResult.error ∈ [ReadResult.frame .malformed, .frame (.value (.str "x")),
         .frame (.value (.obj [("type", .str "Heartbeat")])), .error]) :=
  ⟨(reader_ends_only_on_read_error quoteVariant).2.2.1
      [.malformed, .value (.str "x"), .value (.obj [("type", .str "Heartbeat")])],
    (reader_ends_only_on_read_error quoteVariant).1 _⟩

/-- C27 as stated fails: an envelope of type "Quote" whose payload holds a bid
and no symbol is delivered by the envelope attempt with an empty symbol, and so
is an envelope whose payload is `null`. -/
theorem enveloped_quote_with_empty_symbol :
    decodeFrame quoteVariant (envelopeFrame "Quote" (.obj [("bid", .num { whole := 1 })])) =
        .enveloped { Bid := { whole := 1 } } ∧
      (Quote.mk "" { whole := 1 } {} 0 {} 0).Symbol = "" ∧
      decodeFrame quoteVariant (envelopeFrame "Quote" .null) = .enveloped {} := by
  decide

/-- C27, amended: every Quote the quote decoder delivers by the direct attempt
has a non-empty symbol; a Quote it delivers by the envelope attempt comes from
a frame that decodes without error as an envelope of type "Quote", and its
symbol is not tested. -/
theorem direct_quote_has_symbol (raw : Frame) (ev : Quote) :
    (decodeFrame quoteVariant raw = .direct ev → ev.Symbol ≠ "") ∧
      (decodeFrame quoteVariant raw = .enveloped ev →
        unmarshal Envelope.fields raw {} = ((unmarshal Envelope.fields raw {}).1, true) ∧
        (unmarshal Envelope.fields raw {}).1.Type_ = "Quote") := by
  unfold decodeFrame
  rcases hu : unmarshal quoteVariant.fields raw quoteVariant.zero with ⟨v1, ok1⟩
  rcases he : unmarshal Envelope.fields raw {} with ⟨resp, ok2⟩
  rcases hd : unmarshal quoteVariant.fields resp.Data v1 with ⟨v2, ok3⟩
  simp only [hd]
  by_cases hacc : quoteVariant.accept v1 = true
  · have hsym : v1.Symbol ≠ "" := by simpa [quoteVariant] using hacc
    by_cases hl : resp.Type_ = quoteVariant.label
    · have hl2 : resp.Type_ = "Quote" := hl
      cases ok1 <;> cases ok2 <;> cases ok3 <;> simp [hacc, hl, hl2] <;>
        first | rfl | exact fun _ => rfl | (rintro rfl; exact hsym)
    · cases ok1 <;> cases ok2 <;> cases ok3 <;> simp [hacc, hl] <;>
        first | rfl | exact fun _ => rfl | (rintro rfl; exact hsym)
  · by_cases hl : resp.Type_ = quoteVariant.label
    · have hl2 : resp.Type_ = "Quote" := hl
      cases ok1 <;> cases ok2 <;> cases ok3 <;> simp [hacc, hl, hl2] <;>
        first | rfl | exact fun _ => rfl
    · cases ok1 <;> cases ok2 <;> cases ok3 <;> simp [hacc, hl]

/-- Instance of C27, amended: the frame with symbol "EURUSD" is delivered by
the direct attempt. -/
theorem direct_quote_has_symbol_witness :
    decodeFrame quoteVariant (bareFrame (.obj [("symbol", .str "EURUSD")])) =
        .direct { Symbol := "EURUSD" } ∧
      (Quote.mk "EURUSD" {} {} 0 {} 0).Symbol ≠ "" :=
  have h : decodeFrame quoteVariant (bareFrame (.obj [("symbol", .str "EURUSD")])) =
      .direct { Symbol := "EURUSD" } := by decide
  ⟨h, (direct_quote_has_symbol _ _).1 h⟩

/-- C28 on the code: the second `json.Unmarshal` decodes the payload into the
variable the first attempt has already written to.  On the quote loop a frame
with a top-level bid beside an envelope is delivered with that bid, which the
payload alone does not give; on the order-update loop a frame whose top-level
decode fails on `user` is delivered with the top-level balance. -/
theorem enveloped_event_keeps_top_level_fields :
    decodeFrame quoteVariant (.value (.obj [("bid", .num { whole := 7 }), ("type", .str "Quote"),
        ("data", .obj [("symbol", .str "E")])])) =
      .enveloped { Symbol := "E", Bid := { whole := 7 } } ∧
    unmarshal Quote.fields (.value (.obj [("symbol", .str "E")])) {} = ({ Symbol := "E" }, true) ∧
    (Quote.mk "E" { whole := 7 } {} 0 {} 0) ≠ { Symbol := "E" } ∧
    decodeFrame orderUpdateVariant (.value (.obj [("balance", .num { whole := 5 }),
        ("user", .str "x"), ("type", .str "OrderUpdate"),
        ("data", .obj [("equity", .num { whole := 1 })])])) =
      .enveloped { Balance := { whole := 5 }, Equity := { whole := 1 } } ∧
    unmarshal OrderUpdateSummary.fields (.value (.obj [("equity", .num { whole := 1 })])) {} =
      ({ Equity := { whole := 1 } }, true) := by
  decide

theorem readLoop_single_length {T : Type} (V : Variant T) (raw : Frame) :
    (readLoop V [.frame raw]).length ≤ 1 := by
  cases h : decodeFrame V raw <;> simp [readLoop, h]

theorem readLoop_length_le {T : Type} (V : Variant T) :
    ∀ reads : List ReadResult, (readLoop V reads).length ≤ (framesRead reads).length
  | [] => by simp [readLoop, framesRead]
  | .error :: _ => by simp [readLoop, framesRead]
  | .frame raw :: rest => by
    have ih := readLoop_length_le V rest
    cases h : decodeFrame V raw <;> simp [readLoop, framesRead, h] <;> omega

/-- C29: in every loop the callback is called at most once for a frame: a
reader that reads one frame makes at most one callback; when the direct
attempt accepts the frame it makes exactly the one callback with the directly
decoded event; and over any reads there are no more callbacks than frames
read. -/
theorem callback_at_most_once {T : Type} (V : Variant T) :
    (∀ raw : Frame, (readLoop V [.frame raw]).length ≤ 1) ∧
      (∀ (raw : Frame) (ev : T), unmarshal V.fields raw V.zero = (ev, true) →
        V.accept ev = true → readLoop V [.frame raw] = [ev]) ∧
      (∀ reads : List ReadResult, (readLoop V reads).length ≤ (framesRead reads).length) := by
  refine ⟨readLoop_single_length V, fun raw ev h ha => ?_, readLoop_length_le V⟩
  simp [readLoop, decodeFrame_of_direct V raw ev h ha]

/-- Instance of C29: the quote frame for "EURUSD", which also carries an
envelope of type "Quote", gives the one callback of the direct attempt. -/
theorem callback_at_most_once_witness :
    readLoop quoteVariant [.frame (.value (.obj [("symbol", .str "EURUSD"),
        ("type", .str "Quote"), ("data", .obj [("symbol", .str "GBPUSD")])]))] =
      [{ Symbol := "EURUSD" }] :=
  (callback_at_most_once quoteVariant).2.1 _ { Symbol := "EURUSD" } (by decide) (by decide)

/-- C30 as stated fails: the bare quote frame for "EURUSD" is delivered by the
decoder of `SocketOnQuote` with symbol "EURUSD", while `ReadQuote` on the same
frame returns the zero Quote without error. -/
theorem readQuote_misses_bare_quote :
    decodeFrame quoteVariant (bareFrame (.obj [("symbol", .str "EURUSD")])) =
        .direct { Symbol := "EURUSD" } ∧
      ReadQuote (.frame (bareFrame (.obj [("symbol", .str "EURUSD")]))) = some {} ∧
      (Quote.mk "EURUSD" {} {} 0 {} 0) ≠ {} := by
  decide

theorem findField_type_wrapper :
    findField QuoteWrapper.fields "type" =
      some (.string "type" (fun s v => { s with Type_ := v })) := rfl

theorem findField_data_wrapper :
    findField QuoteWrapper.fields "data" =
      some (.struct "data" (fun s => s.Quote) (fun s v => { s with Quote := v }) Quote.fields) :=
  rfl

theorem readQuote_envelope (p : Json) (q : Quote)
    (h : (decodeFrame quoteVariant (envelopeFrame "Quote" p)).delivered = some q) :
    ReadQuote (.frame (envelopeFrame "Quote" p)) = some q := by
  rcases hs : storeStruct Quote.fields p {} with ⟨v, st⟩
  have hd : decodeFrame quoteVariant (envelopeFrame "Quote" p) =
      if st = .ok then .enveloped v else .dropped := by
    unfold decodeFrame
    rw [unmarshal_envelopeFrame_of_no_field quoteVariant.fields findField_type_quote
      findField_data_quote, unmarshal_envelope]
    cases st <;> simp [quoteVariant, unmarshal, hs]
  have hr : ReadQuote (.frame (envelopeFrame "Quote" p)) = if st = .ok then some v else none := by
    have ho : ∀ (ms : List (String × Json)) (s : QuoteWrapper),
        storeStruct QuoteWrapper.fields (.obj ms) s =
          unmarshalMembers QuoteWrapper.fields ms s false := fun _ _ => rfl
    have hz : ({ Type_ := "Quote" } : QuoteWrapper).Quote = {} := rfl
    cases st <;>
      simp [ReadQuote, unmarshal, envelopeFrame, ho, unmarshalMembers,
        findField_type_wrapper, findField_data_wrapper, Field.string, Field.struct, hz, hs]
  rw [hd] at h
  rw [hr]
  cases st <;> simp_all [Outcome.delivered]

theorem unmarshalMembers_of_no_field {S : Type} (fields : List (Field S)) :
    ∀ (ms : List (String × Json)) (s : S) (saved : Bool),
      (∀ m ∈ ms, findField fields m.1 = none) →
      unmarshalMembers fields ms s saved = (s, if saved then .typeError else .ok)
  | [], _, _, _ => rfl
  | (key, v) :: rest, s, saved, h => by
    have hk : findField fields key = none := h (key, v) (List.mem_cons_self _ _)
    simp only [unmarshalMembers, hk]
    exact unmarshalMembers_of_no_field fields rest s saved
      (fun m hm => h m (List.mem_cons_of_mem _ hm))

theorem findField_envelope_of_wrapper (key : String)
    (h : findField QuoteWrapper.fields key = none) : findField Envelope.fields key = none := by
  simp only [findField, QuoteWrapper.fields, Envelope.fields, Field.string, Field.struct,
    Field.rawMessage, List.find?] at h ⊢
  split at h
  · simp at h
  · rename_i h1
    split at h1 <;> simp_all
    split at h1 <;> simp_all
    split at h <;> simp_all
    split at h <;> simp_all

theorem readQuote_bare (ms : List (String × Json)) (q : Quote)
    (hm : ∀ m ∈ ms, findField QuoteWrapper.fields m.1 = none)
    (h : (decodeFrame quoteVariant (.value (.obj ms))).delivered = some q) :
    ReadQuote (.frame (.value (.obj ms))) = some {} ∧ q ≠ {} := by
  constructor
  · have hw := unmarshalMembers_of_no_field QuoteWrapper.fields ms {} false hm
    simp [ReadQuote, unmarshal, storeStruct, hw]
  · have he := unmarshalMembers_of_no_field Envelope.fields ms {} false
      (fun m hmem => findField_envelope_of_wrapper m.1 (hm m hmem))
    have hu : unmarshal Envelope.fields (.value (.obj ms)) {} = ({}, true) := by
      simp [unmarshal, storeStruct, he]
    unfold decodeFrame at h
    rcases hq : unmarshal quoteVariant.fields (.value (.obj ms)) quoteVariant.zero with ⟨v1, ok1⟩
    rw [hq, hu] at h
    dsimp only at h
    by_cases hacc : (ok1 && quoteVariant.accept v1) = true
    · rw [if_pos hacc] at h
      simp only [Outcome.delivered, Option.some.injEq] at h
      subst h
      have hsym : v1.Symbol ≠ "" := by
        simp only [quoteVariant, Bool.and_eq_true, bne_iff_ne] at hacc
        exact hacc.2
      intro hz
      exact hsym (by rw [hz])
    · rw [if_neg hacc] at h
      simp only [quoteVariant, Outcome.delivered, if_true] at h
      rw [if_neg (by decide)] at h
      cases h

/-- C30, amended: `ReadQuote` and the decoder of `SocketOnQuote` agree on the
envelopes {"type":"Quote","data":p}: whenever the decoder delivers a Quote for
such a frame, `ReadQuote` returns that Quote without error.  They disagree on
every frame that is a JSON object with no member whose key selects `type` or
`data`: whenever the decoder delivers a Quote for such a frame, `ReadQuote`
returns without error the zero Quote, which the delivered Quote is not. -/
theorem readQuote_agrees_on_envelopes_not_on_bare_frames :
    (∀ (p : Json) (q : Quote),
      (decodeFrame quoteVariant (envelopeFrame "Quote" p)).delivered = some q →
        ReadQuote (.frame (envelopeFrame "Quote" p)) = some q) ∧
    (∀ (ms : List (String × Json)) (q : Quote),
      (∀ m ∈ ms, findField QuoteWrapper.fields m.1 = none) →
      (decodeFrame quoteVariant (.value (.obj ms))).delivered = some q →
        ReadQuote (.frame (.value (.obj ms))) = some {} ∧ q ≠ {}) :=
  ⟨readQuote_envelope, readQuote_bare⟩

/-- Instance of C30, amended: the envelope around the payload with symbol
"EURUSD", and the bare frame with symbol "EURUSD" and a bid. -/
theorem readQuote_agrees_on_envelopes_not_on_bare_frames_witness :
    ((decodeFrame quoteVariant
        (envelopeFrame "Quote" (.obj [("symbol", .str "EURUSD")]))).delivered =
      some { Symbol := "EURUSD" } ∧
    ReadQuote (.frame (envelopeFrame "Quote" (.obj [("symbol", .str "EURUSD")]))) =
      some { Symbol := "EURUSD" }) ∧
    ((decodeFrame quoteVariant
        (.value (.obj [("symbol", .str "EURUSD"), ("bid", .num { whole := 1 })]))).delivered =
      some { Symbol := "EURUSD", Bid := { whole := 1 } } ∧
    ReadQuote (.frame (.value (.obj [("symbol", .str "EURUSD"), ("bid", .num { whole := 1 })]))) =
      some {} ∧
    (Quote.mk "EURUSD" { whole := 1 } {} 0 {} 0) ≠ {}) :=
  have h1 : (decodeFrame quoteVariant
      (envelopeFrame "Quote" (.obj [("symbol", .str "EURUSD")]))).delivered =
      some { Symbol := "EURUSD" } := by decide
  have h2 : (decodeFrame quoteVariant
      (.value (.obj [("symbol", .str "EURUSD"), ("bid", .num { whole := 1 })]))).delivered =
      some { Symbol := "EURUSD", Bid := { whole := 1 } } := by decide
  have hm : ∀ m ∈ [("symbol", Json.str "EURUSD"), ("bid", Json.num { whole := 1 })],
      findField QuoteWrapper.fields m.1 = none := by
    intro m hmem
    simp only [List.mem_cons, List.mem_singleton, List.not_mem_nil, or_false] at hmem
    rcases hmem with rfl | rfl <;> rfl
  ⟨⟨h1, readQuote_agrees_on_envelopes_not_on_bare_frames.1 _ _ h1⟩, h2,
    readQuote_agrees_on_envelopes_not_on_bare_frames.2 _ _ hm h2⟩

end Mt5api

